import Mathlib

/-!
# SpaceMouse HID session (`spacemouse_device.cpp`): device selection, report decoding, session state

Shallow embedding of `SpaceMouseDevice` and verification of its selection loop,
its report decoder, its open / close / poll paths, its background loop and the sessions
reachable through them.

Conventions of the embedding.
* `uint8_t` and `uint16_t` are `Fin 256` and `Fin 65536`; arithmetic on them is done on
  their values in `Nat`, the way C++ promotes them to `int`.
* A `hid_device_info *` into the enumeration is the index of the node in the list.
* Godot's `String::to_lower` belongs to the engine, not to this repository: the functions
  that call it take it as the parameter `to_lower`, and every theorem holds for all of them.
* `state_mutex` is a flag; taking it while it is held is the result `none`, a call that
  does not return. Operations of different threads are interleaved whole, or at the
  boundaries of their lock scopes where a theorem says so.
* `Vector3` holds integers: its components are always `int16_t` values widened to a
  floating-point type that represents every such value exactly.
-/

namespace SpaceMouse

abbrev uint8_t := Fin 256
abbrev uint16_t := Fin 65536

/-! ## Strings -/

/-- Scan of `String::find`: the index of the first suffix of the text that starts with
`what`, counting from `i`, or `-1`. -/
def String_find_from (what : List Char) : List Char → Nat → Int
  | [], _ => -1
  | c :: cs, i =>
    if what.isPrefixOf (c :: cs) then (i : Int) else String_find_from what cs (i + 1)

/-- Godot `String::find(what)`: the index of the first occurrence of `what`, `-1` when there
is none or when `what` is empty. -/
def String_find (s what : String) : Int :=
  if what.data.isEmpty then -1 else String_find_from what.data s.data 0

/-- An ASCII instance of lower-casing, used to evaluate the definitions on concrete input. -/
def ascii_to_lower (s : String) : String :=
  ⟨s.data.map Char.toLower⟩

/-- `wchar_to_string`: a null pointer gives the empty string. -/
def wchar_to_string : Option String → String
  | none => ""
  | some s => s

/-! ## Device selection -/

/-- The fields of hidapi's `hid_device_info` that the selector reads. -/
structure hid_device_info where
  path : String
  manufacturer_string : Option String
  product_string : Option String
  usage_page : uint16_t
  usage : uint16_t
deriving DecidableEq, Repr

/-- `SpaceMouseDevice::matches_spacemouse` (on a non-null descriptor). -/
def matches_spacemouse (to_lower : String → String) (p_info : hid_device_info) : Bool :=
  let manufacturer := to_lower (wchar_to_string p_info.manufacturer_string)
  let product := to_lower (wchar_to_string p_info.product_string)
  if String_find manufacturer "3dconnexion" != -1 then true
  else if String_find product "space" != -1 then true
  else false

/-- The score computed in the body of the selection loop of `open_first` (lines 75-89). -/
def candidate_score (to_lower : String → String) (cur : hid_device_info) : Int :=
  let path_str := to_lower cur.path
  let score : Int :=
    if cur.usage_page.val == 0x01 && cur.usage.val == 0x08 then 100
    else if cur.usage_page.val == 0x01 && cur.usage.val == 0x02 then 80
    else if (cur.usage_page.val &&& 0xFF00) == 0xFF00 then 60
    else 1
  if String_find path_str "col01" != -1 || String_find path_str "mi_00" != -1 then score + 20
  else score

/-- The `while (cur != nullptr)` loop of `open_first`: `i` is the position of `cur` in the
enumeration, `best` the position of the best node so far, `best_score` its score. -/
def select_loop (to_lower : String → String) :
    List hid_device_info → Nat → Option Nat → Int → Option Nat × Int
  | [], _, best, best_score => (best, best_score)
  | cur :: next, i, best, best_score =>
    if !matches_spacemouse to_lower cur then
      select_loop to_lower next (i + 1) best best_score
    else
      let score := candidate_score to_lower cur
      if score > best_score then
        select_loop to_lower next (i + 1) (some i) score
      else
        select_loop to_lower next (i + 1) best best_score

/-- The selection of `open_first`: the loop started with `best = nullptr`,
`best_score = -1`; the result is the position of `best`. -/
def select_best (to_lower : String → String) (info : List hid_device_info) : Option Nat :=
  (select_loop to_lower info 0 none (-1)).1

/-- The claim's matching rule: the lower-cased manufacturer contains "3dconnexion" or the
lower-cased product contains "space". -/
def claimed_match (to_lower : String → String) (d : hid_device_info) : Prop :=
  "3dconnexion".data <:+: (to_lower (wchar_to_string d.manufacturer_string)).data ∨
  "space".data <:+: (to_lower (wchar_to_string d.product_string)).data

/-- The claim's score: 100, 80, 60 or 1 by usage, plus 20 for a first-collection path. -/
def claimed_score (to_lower : String → String) (d : hid_device_info) : Int :=
  (if d.usage_page.val = 1 ∧ d.usage.val = 8 then 100
   else if d.usage_page.val = 1 ∧ d.usage.val = 2 then 80
   else if d.usage_page.val / 256 = 0xFF then 60
   else 1) +
  (if "col01".data <:+: (to_lower d.path).data ∨ "mi_00".data <:+: (to_lower d.path).data
   then 20 else 0)

/-- The claim's path marker: the lower-cased path contains "col01" or "mi_00". -/
def first_collection (to_lower : String → String) (d : hid_device_info) : Prop :=
  "col01".data <:+: (to_lower d.path).data ∨ "mi_00".data <:+: (to_lower d.path).data

instance first_collection_decidable (to_lower : String → String) (d : hid_device_info) :
    Decidable (first_collection to_lower d) := by
  unfold first_collection
  infer_instance

/-- A multi-axis controller node (usage page 1, usage 8) whose path has no collection
marker. -/
def multi_axis_node : hid_device_info :=
  ⟨"hid#vid_256f&pid_c635&col02", some "3dconnexion", some "spacemouse compact", 1, 8⟩

/-- A mouse node (usage page 1, usage 2) of the same device, on its first collection. -/
def mouse_node : hid_device_info :=
  ⟨"hid#vid_256f&pid_c635&col01", some "3dconnexion", some "spacemouse compact", 1, 2⟩

/-! ## Session state -/

/-- Godot `Vector3`, holding widened `int16_t` components. -/
structure Vector3 where
  x : Int
  y : Int
  z : Int
deriving DecidableEq, Repr

/-- `Vector3()`. -/
def Vector3.zero : Vector3 := ⟨0, 0, 0⟩

/-- `Vector3::length_squared`. On widened `int16_t` components the floating-point sum of
squares is 0 when all three are 0 and at least 1 otherwise (rounding is monotone), so the
comparisons with 1.0 in `handle_report` are the comparisons of this integer with 1. -/
def Vector3.length_squared (v : Vector3) : Int :=
  v.x * v.x + v.y * v.y + v.z * v.z

/-- An open hidapi handle. -/
abbrev hid_device := Nat

/-- The members of `SpaceMouseDevice` (spacemouse_device.h). `reader_joinable` is
`reader.joinable()`, `state_mutex` tells whether `state_mutex` is locked. -/
structure SpaceMouseDevice where
  device : Option hid_device
  reader_joinable : Bool
  running : Bool
  enabled : Bool
  connected : Bool
  raw_logging : Bool
  last_report_id : uint8_t
  usage_page : uint16_t
  usage : uint16_t
  device_path : String
  last_read_result : Int
  last_error : String
  read_count : Nat
  error_count : Nat
  loop_count : Nat
  last_tick_ms : Nat
  thread_alive : Bool
  state_mutex : Bool
  translation : Vector3
  rotation : Vector3
  buttons : List Int
  last_report : List uint8_t
  seen_reports : List (uint8_t × Int)
deriving DecidableEq, Repr

/-- The member initialisers of the class: the freshly constructed session. -/
def SpaceMouseDevice.init : SpaceMouseDevice where
  device := none
  reader_joinable := false
  running := false
  enabled := true
  connected := false
  raw_logging := false
  last_report_id := 0
  usage_page := 0
  usage := 0
  device_path := ""
  last_read_result := 0
  last_error := ""
  read_count := 0
  error_count := 0
  loop_count := 0
  last_tick_ms := 0
  thread_alive := false
  state_mutex := false
  translation := Vector3.zero
  rotation := Vector3.zero
  buttons := []
  last_report := []
  seen_reports := []

/-- Construction of `std::lock_guard<std::mutex>` on `state_mutex`. `std::mutex` is not
recursive: when the mutex is already locked the calling thread does not get past this
point, which is the result `none`. -/
def lock (s : SpaceMouseDevice) : Option SpaceMouseDevice :=
  if s.state_mutex then none else some { s with state_mutex := true }

/-- The largest value of a C++ `int`. -/
def INT_MAX : Int := 2147483647

/-- End of the scope of a `std::lock_guard` on `state_mutex`. -/
def unlock (s : SpaceMouseDevice) : SpaceMouseDevice :=
  { s with state_mutex := false }

/-- `seen_reports[report_id]++` on the map, kept as an association list: a missing key is
inserted with the value 0 and then incremented. The count is a C++ `int`: this is what
`++` does while the count is below `INT_MAX`; at `INT_MAX` the increment is a signed
overflow, for which C++ defines no result, and what is proved of a count after `++` takes
the count below `INT_MAX`. -/
def seen_increment : List (uint8_t × Int) → uint8_t → List (uint8_t × Int)
  | [], k => [(k, 1)]
  | (k', n) :: rest, k =>
    if k' = k then (k', n + 1) :: rest else (k', n) :: seen_increment rest k

/-- The count recorded for a report id, 0 when the map has no entry for it. -/
def seen_count : List (uint8_t × Int) → uint8_t → Int
  | [], _ => 0
  | (k', n) :: rest, k => if k' = k then n else seen_count rest k

/-! ## Report decoder -/

/-- `read_le_i16`: `static_cast<int16_t>(p_data[0] | (p_data[1] << 8))`. -/
def read_le_i16 (p_data : List uint8_t) : Int :=
  let v := ((p_data.getD 0 0).val ||| ((p_data.getD 1 0).val <<< 8)) % 65536
  if v ≥ 32768 then (v : Int) - 65536 else (v : Int)

/-- `SpaceMouseDevice::handle_translation`. -/
def handle_translation (s : SpaceMouseDevice) (p_data : List uint8_t) :
    Option SpaceMouseDevice := do
  let x := read_le_i16 (p_data.drop 0)
  let y := read_le_i16 (p_data.drop 2)
  let z := read_le_i16 (p_data.drop 4)
  let s ← lock s
  pure (unlock { s with translation := ⟨x, y, z⟩ })

/-- `SpaceMouseDevice::handle_rotation`. -/
def handle_rotation (s : SpaceMouseDevice) (p_data : List uint8_t) :
    Option SpaceMouseDevice := do
  let rx := read_le_i16 (p_data.drop 0)
  let ry := read_le_i16 (p_data.drop 2)
  let rz := read_le_i16 (p_data.drop 4)
  let s ← lock s
  pure (unlock { s with rotation := ⟨rx, ry, rz⟩ })

/-- The first loop of `handle_buttons`: the `uint32_t` mask after `limit` rounds of
`mask |= static_cast<uint32_t>(p_data[i]) << (8 * i)`. -/
def buttons_mask (p_data : List uint8_t) (limit : Nat) : Nat :=
  (List.range limit).foldl
    (fun mask i => mask ||| (((p_data.getD i 0).val <<< (8 * i)) % 2 ^ 32)) 0

/-- The second loop of `handle_buttons`: `i` is pushed when `mask & (1u << i)` is
non-zero, for `i` from 0 to 31. -/
def buttons_of_mask (mask : Nat) : List Int :=
  (List.range 32).foldl
    (fun btns i => if mask &&& ((1 <<< i) % 2 ^ 32) != 0 then btns ++ [(i : Int)] else btns) []

/-- `SpaceMouseDevice::handle_buttons`. -/
def handle_buttons (s : SpaceMouseDevice) (p_data : List uint8_t) (p_size : Nat) :
    Option SpaceMouseDevice := do
  let limit := min p_size 4
  let mask := buttons_mask p_data limit
  let btns := buttons_of_mask mask
  let s ← lock s
  pure (unlock { s with buttons := btns })

/-- The engine's `is_digit`: a decimal digit. -/
def is_digit (c : Char) : Bool :=
  decide (48 ≤ c.toNat ∧ c.toNat ≤ 57)

/-- Godot `String::num_int64(p_num, base)` on a number that is not negative: its digits in
the base, most significant first, the letters in lower case, "0" for zero. -/
def String_num_int64 (p_num : Nat) (base : Nat) : List Char :=
  Nat.toDigits base p_num

/-- Godot `String::pad_zeros(p_digits)`, after the engine's `ustring.cpp`: `stop` is the
position of the first "." or the length; `begin` is moved past the leading characters that
are not decimal digits; when a decimal digit is found before `stop`, "0" is inserted at
`begin` until `stop - begin` reaches `p_digits`; otherwise the text is returned as it is. -/
def String_pad_zeros (s : List Char) (p_digits : Nat) : List Char :=
  let stop := (s.takeWhile fun c => c != '.').length
  if stop = 0 then s
  else
    let begin := ((s.take stop).takeWhile fun c => !is_digit c).length
    if begin ≥ stop then s
    else s.take begin ++ List.replicate (p_digits - (stop - begin)) '0' ++ s.drop begin

/-- `String::num_int64(last_report[i], 16).pad_zeros(2)`. -/
def hex_byte (b : uint8_t) : List Char :=
  String_pad_zeros (String_num_int64 b.val 16) 2

/-- The loop of `get_last_report_hex` from position `i` on. -/
def hex_loop : List uint8_t → List Char
  | [] => []
  | [b] => hex_byte b
  | b :: b' :: rest => hex_byte b ++ ' ' :: hex_loop (b' :: rest)

/-- `SpaceMouseDevice::get_last_report_hex`; it holds `state_mutex` while it runs. -/
def get_last_report_hex (s : SpaceMouseDevice) : Option (String × SpaceMouseDevice) := do
  let s ← lock s
  if s.last_report.isEmpty then pure ("", unlock s)
  else pure (⟨hex_loop s.last_report⟩, unlock s)

/-- `SpaceMouseDevice::handle_report`, `p_size` being the length of `p_data`. The lines
written by `UtilityFunctions::print` are not part of the session; the call of
`get_last_report_hex` made for them is. -/
def handle_report (s : SpaceMouseDevice) (p_data : List uint8_t) : Option SpaceMouseDevice :=
  let p_size := p_data.length
  if p_size = 0 then some s
  else do
    let report_id : uint8_t := p_data.getD 0 0
    let s := { s with connected := true }
    let s ← lock s
    let s := unlock { s with
      last_report_id := report_id
      last_report := p_data
      seen_reports := seen_increment s.seen_reports report_id }
    let s ←
      if report_id.val = 0x01 then
        if p_size ≥ 13 then
          let primary_t : Vector3 :=
            ⟨read_le_i16 (p_data.drop 1), read_le_i16 (p_data.drop 3), read_le_i16 (p_data.drop 5)⟩
          let primary_r : Vector3 :=
            ⟨read_le_i16 (p_data.drop 7), read_le_i16 (p_data.drop 9), read_le_i16 (p_data.drop 11)⟩
          let alt_t : Vector3 :=
            ⟨read_le_i16 (p_data.drop 7), read_le_i16 (p_data.drop 9), read_le_i16 (p_data.drop 11)⟩
          let alt_r : Vector3 :=
            ⟨read_le_i16 (p_data.drop 1), read_le_i16 (p_data.drop 3), read_le_i16 (p_data.drop 5)⟩
          let primary_r_zero := decide (primary_r.length_squared < 1)
          let primary_t_zero := decide (primary_t.length_squared < 1)
          let primary_r := if primary_r_zero && decide (alt_r.length_squared ≥ 1) then alt_r else primary_r
          let primary_t := if primary_t_zero && decide (alt_t.length_squared ≥ 1) then alt_t else primary_t
          (lock s).map fun s => unlock { s with translation := primary_t, rotation := primary_r }
        else if p_size ≥ 7 then handle_translation s (p_data.drop 1)
        else some s
      else if report_id.val = 0x02 then
        if p_size ≥ 7 then handle_rotation s (p_data.drop 1) else some s
      else if report_id.val = 0x03 ∨ report_id.val = 0x05 ∨ report_id.val = 0x06 then
        if p_size ≥ 2 then handle_buttons s (p_data.drop 1) (p_size - 1) else some s
      else if report_id.val = 0x04 then
        if p_size ≥ 7 then handle_rotation s (p_data.drop 1)
        else if p_size ≥ 2 then handle_buttons s (p_data.drop 1) (p_size - 1)
        else some s
      else some s
    if s.raw_logging then (get_last_report_hex s).map Prod.snd else some s

/-- The session after the bookkeeping block at the head of `handle_report` (connected
flag, last report, its id, seen-reports count), with `state_mutex` released. -/
def recorded (s : SpaceMouseDevice) (p_data : List uint8_t) : SpaceMouseDevice :=
  { s with
    connected := true
    state_mutex := false
    last_report_id := p_data.getD 0 0
    last_report := p_data
    seen_reports := seen_increment s.seen_reports (p_data.getD 0 0) }

/-- The claim's axis value: the two's-complement signed 16-bit value of `b0 + 256 * b1`. -/
def le_int16 (b0 b1 : uint8_t) : Int :=
  if b0.val + 256 * b1.val < 32768 then ((b0.val + 256 * b1.val : Nat) : Int)
  else ((b0.val + 256 * b1.val : Nat) : Int) - 65536

/-- The claim's triplet: the three little-endian signed 16-bit values in the six bytes
from position `k` on. -/
def triplet_at (p_data : List uint8_t) (k : Nat) : Vector3 :=
  ⟨le_int16 (p_data.getD k 0) (p_data.getD (k + 1) 0),
   le_int16 (p_data.getD (k + 2) 0) (p_data.getD (k + 3) 0),
   le_int16 (p_data.getD (k + 4) 0) (p_data.getD (k + 5) 0)⟩

/-- The claim's mask: the little-endian number the bytes spell. -/
def le_mask : List uint8_t → Nat
  | [] => 0
  | b :: bs => b.val + 256 * le_mask bs

/-- The claim's button list: the indices from 0 to 31 of the set bits of the mask spelled
by the first four (or fewer) bytes after the id, in ascending order. -/
def claimed_buttons (p_data : List uint8_t) : List Int :=
  ((List.range 32).filter fun i => (le_mask ((p_data.drop 1).take 4)).testBit i).map Int.ofNat

/-! ## Opening, closing and polling -/

/-- What the reader thread does once it finds `running` cleared: the two assignments after
the `while (running)` loop of `reader_loop`. -/
def reader_exit (s : SpaceMouseDevice) : SpaceMouseDevice :=
  { s with connected := false, thread_alive := false }

/-- `SpaceMouseDevice::close`. The join is taken between two iterations of the reader: the
reader sees `running` cleared at its next test and leaves its loop. -/
def close (s : SpaceMouseDevice) : SpaceMouseDevice :=
  let s := { s with running := false }
  let s := if s.reader_joinable then { reader_exit s with reader_joinable := false } else s
  let s := if s.device.isSome then { s with device := none } else s
  { s with connected := false }

/-- The node `best` points to after the selection loop, `none` for `nullptr`. -/
def best_node (to_lower : String → String) (info : List hid_device_info) :
    Option hid_device_info :=
  (select_best to_lower info).bind fun i => info.get? i

/-- `SpaceMouseDevice::open_first`. `info` is the list `hid_enumerate(0, 0)` returns and
`hid_open_path` the transport's open, `none` being its null result. The result is the
returned flag and the session at the return, before the new reader thread has run. -/
def open_first (to_lower : String → String) (hid_open_path : String → Option hid_device)
    (info : List hid_device_info) (s : SpaceMouseDevice) : Option (Bool × SpaceMouseDevice) := do
  let s := close s
  let s ←
    match best_node to_lower info with
    | some best => do
      let s := { s with device := hid_open_path best.path }
      let s ← lock s
      pure (unlock { s with
        usage_page := best.usage_page
        usage := best.usage
        device_path := best.path })
    | none => pure { s with usage_page := 0, usage := 0, device_path := "" }
  if s.device.isNone then pure (false, s)
  else
    pure (true, { s with
      translation := Vector3.zero
      rotation := Vector3.zero
      buttons := []
      last_report := []
      last_report_id := 0
      seen_reports := []
      read_count := 0
      error_count := 0
      loop_count := 0
      last_tick_ms := 0
      thread_alive := false
      connected := true
      running := true
      reader_joinable := true })

/-- The outcome of one `hid_read`: the bytes written to the buffer, their number being the
result (none for the result 0), or the result -1 with what `hid_error` then returns. -/
inductive hid_read_result where
  | data (report : List uint8_t)
  | error (err : Option String)
deriving DecidableEq, Repr

/-- The `int` a read returns. -/
def hid_read_result.res : hid_read_result → Int
  | .data report => report.length
  | .error _ => -1

/-- The bytes a read left in the buffer. -/
def hid_read_result.bytes : hid_read_result → List uint8_t
  | .data report => report
  | .error _ => []

/-- The `while (true)` loop of `get_state`. The list holds the outcomes of the coming
reads of the handle, in order; once it is used up a read finds no data and returns 0. -/
def poll_loop (s : SpaceMouseDevice) : List hid_read_result → Option SpaceMouseDevice
  | [] => do
    let s ← lock s
    pure (unlock { s with last_read_result := 0 })
  | r :: pending => do
    let res := r.res
    let s ← lock s
    let s := { s with last_read_result := res }
    if res > 0 then do
      let s ← handle_report s (r.bytes.take res.toNat)
      let s := { s with read_count := (s.read_count + 1) % 2 ^ 64 }
      poll_loop (unlock s) pending
    else if res < 0 then
      let s := { s with error_count := (s.error_count + 1) % 2 ^ 64 }
      let s :=
        match r with
        | .error (some err) => { s with last_error := err }
        | _ => { s with last_error := "Unknown HID error (poll)" }
      pure (unlock s)
    else pure (unlock s)

/-- The dictionary `get_state` returns. -/
structure StateView where
  t : Vector3
  r : Vector3
  buttons : List Int
  report_id : uint8_t
  usage_page : uint16_t
  usage : uint16_t
  path : String
  last_read_result : Int
  last_error : String
  read_count : Int
  error_count : Int
  loop_count : Int
  last_tick_ms : Int
  thread_alive : Bool
  seen_reports : List (String × Int)
  connected : Bool
deriving DecidableEq, Repr

/-- The cast `(int64_t)` of a `uint64_t`. -/
def to_int64 (n : Nat) : Int :=
  if n % 2 ^ 64 < 2 ^ 63 then ((n % 2 ^ 64 : Nat) : Int) else ((n % 2 ^ 64 : Nat) : Int) - 2 ^ 64

/-- `SpaceMouseDevice::get_state`: the view returned and the session after the call, or
`none` when the call does not return. -/
def get_state (s : SpaceMouseDevice) (reads : List hid_read_result) :
    Option (StateView × SpaceMouseDevice) := do
  let s ←
    if !s.thread_alive && s.device.isSome && s.enabled then poll_loop s reads else some s
  let s ← lock s
  let state : StateView :=
    { t := s.translation
      r := s.rotation
      buttons := s.buttons
      report_id := s.last_report_id
      usage_page := s.usage_page
      usage := s.usage
      path := s.device_path
      last_read_result := s.last_read_result
      last_error := s.last_error
      read_count := to_int64 s.read_count
      error_count := to_int64 s.error_count
      loop_count := to_int64 s.loop_count
      last_tick_ms := to_int64 s.last_tick_ms
      thread_alive := s.thread_alive
      seen_reports := s.seen_reports.map fun kv => (toString kv.1.val, kv.2)
      connected := s.connected }
  pure (state, unlock s)

/-! ## Background loop and control -/

/-- `SpaceMouseDevice::set_enabled`. -/
def set_enabled (s : SpaceMouseDevice) (p_enabled : Bool) : SpaceMouseDevice :=
  { s with enabled := p_enabled }

/-- `SpaceMouseDevice::enable_raw_logging`. -/
def enable_raw_logging (s : SpaceMouseDevice) (p_enabled : Bool) : SpaceMouseDevice :=
  { s with raw_logging := p_enabled }

/-- The first statement of `reader_loop`, before its `while`. -/
def reader_start (s : SpaceMouseDevice) : SpaceMouseDevice :=
  { s with thread_alive := true }

/-- One pass through the body of `while (running)` in `reader_loop`. `now_ms` is the
clock reading in milliseconds and `read` the outcome `hid_read_timeout` has if the pass
comes to call it. -/
def reader_loop_iteration (s : SpaceMouseDevice) (now_ms : Nat) (read : hid_read_result) :
    Option SpaceMouseDevice := do
  let s ← lock s
  let s := unlock { s with
    loop_count := (s.loop_count + 1) % 2 ^ 64
    last_tick_ms := now_ms % 2 ^ 64 }
  if !s.enabled then pure s
  else if s.device.isNone then pure s
  else do
    let res := read.res
    let s ← lock s
    let s := { s with last_read_result := res }
    let s :=
      if res < 0 then
        match read with
        | .error (some err) =>
          { s with error_count := (s.error_count + 1) % 2 ^ 64, last_error := err }
        | _ =>
          { s with error_count := (s.error_count + 1) % 2 ^ 64, last_error := "Unknown HID error" }
      else s
    let s := if res ≥ 0 then { s with read_count := (s.read_count + 1) % 2 ^ 64 } else s
    let s := unlock s
    if res > 0 then handle_report s (read.bytes.take res.toNat)
    else if res = 0 then pure s
    else pure { s with connected := false }

/-! ## Lock scopes of the decoder -/

/-- The operations that act on a session: the four calls of the host, and the three
stages of the reader thread. -/
inductive Op where
  | open_first (to_lower : String → String) (hid_open_path : String → Option hid_device)
      (info : List hid_device_info)
  | close
  | get_state (reads : List hid_read_result)
  | set_enabled (p_enabled : Bool)
  | enable_raw_logging (p_enabled : Bool)
  | reader_start
  | reader_iteration (now_ms : Nat) (read : hid_read_result)
  | reader_exit

/-- The session after one operation, run to its end without interleaving; `none` when the
operation cannot take place or does not return. The thread launched by `open_first`
starts once, a pass of its loop needs `running`, and it leaves the loop once `running`
is cleared. -/
def step (s : SpaceMouseDevice) : Op → Option SpaceMouseDevice
  | .open_first to_lower hid_open_path info =>
    (open_first to_lower hid_open_path info s).map Prod.snd
  | .close => some (close s)
  | .get_state reads => (get_state s reads).map Prod.snd
  | .set_enabled p_enabled => some (set_enabled s p_enabled)
  | .enable_raw_logging p_enabled => some (enable_raw_logging s p_enabled)
  | .reader_start =>
    if s.reader_joinable && !s.thread_alive then some (reader_start s) else none
  | .reader_iteration now_ms read =>
    if s.thread_alive && s.running then reader_loop_iteration s now_ms read else none
  | .reader_exit =>
    if s.thread_alive && !s.running then some (reader_exit s) else none

/-- Whether a poll loop of `get_state` ends without a read error. -/
def poll_succeeded (s : SpaceMouseDevice) (reads : List hid_read_result) : Bool :=
  match poll_loop s reads with
  | some s' => decide (0 ≤ s'.last_read_result)
  | none => false

/-- The record "the last synchronous poll succeeded" after one operation: a `get_state`
that polls sets it, nothing else changes it. -/
def step_polled (s : SpaceMouseDevice) (polled : Bool) : Op → Bool
  | .get_state reads =>
    if !s.thread_alive && s.device.isSome && s.enabled then poll_succeeded s reads else polled
  | _ => polled

/-- A sequence of operations, from a session and its poll record. -/
def run : List Op → SpaceMouseDevice × Bool → Option (SpaceMouseDevice × Bool)
  | [], c => some c
  | op :: ops, c => (step c.1 op).bind fun s' => run ops (s', step_polled c.1 c.2 op)

/-- The claim's invariant: connected only with a handle open and the loop alive or the
last synchronous poll a success; thread-alive only while a reader thread exists. -/
def claimed_liveness (s : SpaceMouseDevice) (polled : Bool) : Prop :=
  (s.connected = true →
    s.device.isSome = true ∧ (s.thread_alive = true ∨ polled = true)) ∧
  (s.thread_alive = true → s.reader_joinable = true)

/-- Invariant of the sessions between operations: the mutex is free; there is a reader
thread to join only with a handle open and `running` set; connected and thread-alive are
set only while there is such a thread. -/
def session_invariant (s : SpaceMouseDevice) : Prop :=
  s.state_mutex = false ∧
  (s.reader_joinable = true → s.device.isSome = true ∧ s.running = true) ∧
  (s.connected = true → s.reader_joinable = true) ∧
  (s.thread_alive = true → s.reader_joinable = true)

/-- The claim's point-in-time view of a session: every entry of the returned dictionary is
the value the session holds at that point, the 64-bit counters as `int64_t`, and the
seen-reports mapping holds the count of every id of the session's map, under the decimal
text of the id, and nothing else. -/
def is_snapshot_of (view : StateView) (s : SpaceMouseDevice) : Prop :=
  view.t = s.translation ∧ view.r = s.rotation ∧ view.buttons = s.buttons ∧
  view.report_id = s.last_report_id ∧ view.usage_page = s.usage_page ∧
  view.usage = s.usage ∧ view.path = s.device_path ∧
  view.last_read_result = s.last_read_result ∧ view.last_error = s.last_error ∧
  view.read_count = to_int64 s.read_count ∧ view.error_count = to_int64 s.error_count ∧
  view.loop_count = to_int64 s.loop_count ∧ view.last_tick_ms = to_int64 s.last_tick_ms ∧
  view.thread_alive = s.thread_alive ∧ view.connected = s.connected ∧
  ∀ (key : String) (n : Int),
    (key, n) ∈ view.seen_reports ↔ ∃ k : uint8_t, (k, n) ∈ s.seen_reports ∧ key = toString k.val

/-- The order of the counters of two sessions: read, error and loop counts and every
seen-reports count. -/
def counters_le (s s' : SpaceMouseDevice) : Prop :=
  s.read_count ≤ s'.read_count ∧ s.error_count ≤ s'.error_count ∧
  s.loop_count ≤ s'.loop_count ∧
  ∀ k, seen_count s.seen_reports k ≤ seen_count s'.seen_reports k

/-! ## Hexadecimal text -/

/-- The value of a lower-case hexadecimal digit. -/
def hex_value (c : Char) : Option Nat :=
  if 48 ≤ c.toNat ∧ c.toNat ≤ 57 then some (c.toNat - 48)
  else if 97 ≤ c.toNat ∧ c.toNat ≤ 102 then some (c.toNat - 87)
  else none

/-- The byte two hexadecimal digits spell. -/
def parse_hex_byte (hi lo : Char) : Option uint8_t := do
  let h ← hex_value hi
  let l ← hex_value lo
  pure (Fin.ofNat (16 * h + l))

/-- The claim's reading of the text: bytes of two digits, one space between two bytes,
nothing before the first or after the last. -/
def parse_hex : List Char → Option (List uint8_t)
  | [hi, lo] => (parse_hex_byte hi lo).map fun b => [b]
  | hi :: lo :: sep :: rest =>
    if sep = ' ' then do
      let b ← parse_hex_byte hi lo
      let bs ← parse_hex rest
      pure (b :: bs)
    else none
  | _ => none

/-- The claim's rendering of a byte: its two hexadecimal digits, high one first. -/
def two_hex_digits (b : uint8_t) : List Char :=
  ["0123456789abcdef".data.getD (b.val / 16) '0', "0123456789abcdef".data.getD (b.val % 16) '0']

/-- The claim's text of a report: the two-digit bytes in order, single spaces between. -/
def claimed_hex (report : List uint8_t) : List Char :=
  [' '].intercalate (report.map two_hex_digits)

/-- A session as a first use can leave it once closed: a read error recorded, counters
advanced, a report seen, the multi-axis node recorded as the selection. -/
def used_session : SpaceMouseDevice :=
  { SpaceMouseDevice.init with
    usage_page := 1
    usage := 8
    device_path := "hid#vid_256f&pid_c635&col02"
    last_read_result := -1
    last_error := "device disconnected"
    read_count := 4
    error_count := 1
    loop_count := 9
    last_tick_ms := 1234
    translation := ⟨3, 0, -2⟩
    buttons := [1]
    last_report := [3, 2]
    last_report_id := 3
    seen_reports := [(1, 3), (3, 1)] }

/-- A transport on which every open succeeds, with the handle 1. -/
def open_always : String → Option hid_device := fun _ => some 1

/-- A transport on which every open fails. -/
def open_never : String → Option hid_device := fun _ => none

/-! ## Theorems: device selection -/

theorem String_find_from_nonneg (what : List Char) (l : List Char) (i : Nat) :
    String_find_from what l i = -1 ∨ (0 : Int) ≤ String_find_from what l i := by
  induction l generalizing i with
  | nil => left; rfl
  | cons c cs ih =>
    unfold String_find_from
    split
    · right; exact Int.ofNat_nonneg i
    · exact ih (i + 1)

theorem String_find_from_ne_iff (what : List Char) (hw : what ≠ []) (l : List Char) (i : Nat) :
    String_find_from what l i ≠ -1 ↔ what <:+: l := by
  induction l generalizing i with
  | nil =>
    simp [String_find_from, hw]
  | cons c cs ih =>
    unfold String_find_from
    rw [List.infix_cons_iff]
    by_cases hp : what.isPrefixOf (c :: cs) = true
    · rw [if_pos hp]
      constructor
      · intro _
        exact Or.inl (List.isPrefixOf_iff_prefix.mp hp)
      · intro _ h
        have : (0 : Int) ≤ (i : Int) := Int.ofNat_nonneg i
        omega
    · rw [if_neg hp, ih (i + 1)]
      constructor
      · intro h; exact Or.inr h
      · rintro (h | h)
        · exact absurd (List.isPrefixOf_iff_prefix.mpr h) hp
        · exact h

/-- `find(what) != -1` is containment, for a non-empty `what`. -/
theorem String_find_ne_iff (s what : String) (hw : what.data ≠ []) :
    (String_find s what != -1) = true ↔ what.data <:+: s.data := by
  unfold String_find
  have he : what.data.isEmpty = false := by
    cases h : what.data with
    | nil => exact absurd h hw
    | cons a l => rfl
  rw [he]
  simp only [Bool.false_eq_true, if_false, bne_iff_ne]
  exact String_find_from_ne_iff what.data hw s.data 0

theorem matches_spacemouse_iff (to_lower : String → String) (d : hid_device_info) :
    matches_spacemouse to_lower d = true ↔ claimed_match to_lower d := by
  unfold matches_spacemouse claimed_match
  have h1 := String_find_ne_iff (to_lower (wchar_to_string d.manufacturer_string))
    "3dconnexion" (by decide)
  have h2 := String_find_ne_iff (to_lower (wchar_to_string d.product_string))
    "space" (by decide)
  simp only []
  by_cases a : (String_find (to_lower (wchar_to_string d.manufacturer_string)) "3dconnexion" != -1)
      = true
  · rw [if_pos a]
    simp [h1.mp a]
  · rw [if_neg a]
    by_cases b : (String_find (to_lower (wchar_to_string d.product_string)) "space" != -1) = true
    · rw [if_pos b]
      simp [h2.mp b]
    · rw [if_neg b]
      have na := mt h1.mpr a
      have nb := mt h2.mpr b
      simp [na, nb]

set_option maxRecDepth 100000 in
theorem land_FF00_low : ∀ l : Fin 256, (0xFF00 + l.val) &&& 0xFF00 = 0xFF00 := by decide

/-- For a 16-bit value, `(v & 0xFF00) == 0xFF00` says that the high byte is `0xFF`. -/
theorem land_FF00_iff (x : Nat) (hx : x < 65536) :
    (x &&& 0xFF00 = 0xFF00) ↔ x / 256 = 0xFF := by
  constructor
  · intro h
    have hle := Nat.and_le_left (n := x) (m := 0xFF00)
    rw [h] at hle
    omega
  · intro h
    have h1 : x = 0xFF00 + (x - 0xFF00) := by omega
    have h2 : x - 0xFF00 < 256 := by omega
    have h3 := land_FF00_low ⟨x - 0xFF00, h2⟩
    rw [h1]
    exact h3

theorem candidate_score_eq (to_lower : String → String) (d : hid_device_info) :
    candidate_score to_lower d = claimed_score to_lower d := by
  unfold candidate_score claimed_score
  have h1 := String_find_ne_iff (to_lower d.path) "col01" (by decide)
  have h2 := String_find_ne_iff (to_lower d.path) "mi_00" (by decide)
  have h3 := land_FF00_iff d.usage_page.val d.usage_page.isLt
  simp only [Bool.or_eq_true, Bool.and_eq_true, beq_iff_eq, h1, h2, h3]
  split_ifs <;> simp

theorem claimed_score_pos (to_lower : String → String) (d : hid_device_info) :
    1 ≤ claimed_score to_lower d := by
  unfold claimed_score
  split_ifs <;> simp

/-- Invariant of the selection loop, on the part of the enumeration still to visit: either
nothing there beats `best_score` and `best` is kept, or `best` ends at the first node of
maximal score there, which beats `best_score`. -/
theorem select_loop_spec (to_lower : String → String) (l : List hid_device_info) (i : Nat)
    (best : Option Nat) (best_score : Int) :
    (select_loop to_lower l i best best_score = (best, best_score) ∧
      ∀ d ∈ l, matches_spacemouse to_lower d = true →
        candidate_score to_lower d ≤ best_score) ∨
    ∃ k d, l[k]? = some d ∧
      select_loop to_lower l i best best_score = (some (i + k), candidate_score to_lower d) ∧
      matches_spacemouse to_lower d = true ∧ best_score < candidate_score to_lower d ∧
      (∀ (j : Nat) e, l[j]? = some e → matches_spacemouse to_lower e = true →
        candidate_score to_lower e ≤ candidate_score to_lower d) ∧
      (∀ (j : Nat) e, j < k → l[j]? = some e → matches_spacemouse to_lower e = true →
        candidate_score to_lower e < candidate_score to_lower d) := by
  induction l generalizing i best best_score with
  | nil => left; simp [select_loop]
  | cons cur next ih =>
    by_cases hm : matches_spacemouse to_lower cur = true
    · by_cases hs : candidate_score to_lower cur > best_score
      · have hstep : select_loop to_lower (cur :: next) i best best_score =
            select_loop to_lower next (i + 1) (some i) (candidate_score to_lower cur) := by
          simp [select_loop, hm, hs]
        rw [hstep]
        rcases ih (i + 1) (some i) (candidate_score to_lower cur) with ⟨heq, hall⟩ | ⟨k, d, hk, heq, hmd, hlt, hmax, hfirst⟩
        · right
          refine ⟨0, cur, by simp, by simpa using heq, hm, hs, ?_, ?_⟩
          · intro j e hj he
            cases j with
            | zero =>
              simp at hj
              subst hj
              exact le_refl _
            | succ j =>
              simp at hj
              exact hall e (List.getElem?_mem hj) he
          · intro j e hj
            omega
        · right
          refine ⟨k + 1, d, by simpa using hk, ?_, hmd, by omega, ?_, ?_⟩
          · rw [heq]
            congr 2
            omega
          · intro j e hj he
            cases j with
            | zero =>
              simp at hj
              subst hj
              omega
            | succ j =>
              simp at hj
              exact hmax j e hj he
          · intro j e hjk hj he
            cases j with
            | zero =>
              simp at hj
              subst hj
              exact hlt
            | succ j =>
              simp at hj
              exact hfirst j e (by omega) hj he
      · have hstep : select_loop to_lower (cur :: next) i best best_score =
            select_loop to_lower next (i + 1) best best_score := by
          simp [select_loop, hm, hs]
        rw [hstep]
        rcases ih (i + 1) best best_score with ⟨heq, hall⟩ | ⟨k, d, hk, heq, hmd, hlt, hmax, hfirst⟩
        · left
          refine ⟨heq, ?_⟩
          intro e he hme
          rcases List.mem_cons.mp he with rfl | he
          · omega
          · exact hall e he hme
        · right
          refine ⟨k + 1, d, by simpa using hk, ?_, hmd, hlt, ?_, ?_⟩
          · rw [heq]
            congr 2
            omega
          · intro j e hj he
            cases j with
            | zero =>
              simp at hj
              subst hj
              omega
            | succ j =>
              simp at hj
              exact hmax j e hj he
          · intro j e hjk hj he
            cases j with
            | zero =>
              simp at hj
              subst hj
              omega
            | succ j =>
              simp at hj
              exact hfirst j e (by omega) hj he
    · have hstep : select_loop to_lower (cur :: next) i best best_score =
          select_loop to_lower next (i + 1) best best_score := by
        simp [select_loop, hm]
      rw [hstep]
      rcases ih (i + 1) best best_score with ⟨heq, hall⟩ | ⟨k, d, hk, heq, hmd, hlt, hmax, hfirst⟩
      · left
        refine ⟨heq, ?_⟩
        intro e he hme
        rcases List.mem_cons.mp he with rfl | he
        · exact absurd hme hm
        · exact hall e he hme
      · right
        refine ⟨k + 1, d, by simpa using hk, ?_, hmd, hlt, ?_, ?_⟩
        · rw [heq]
          congr 2
          omega
        · intro j e hj he
          cases j with
          | zero =>
            simp at hj
            subst hj
            exact absurd he hm
          | succ j =>
            simp at hj
            exact hmax j e hj he
        · intro j e hjk hj he
          cases j with
          | zero =>
            simp at hj
            subst hj
            exact absurd he hm
          | succ j =>
            simp at hj
            exact hfirst j e (by omega) hj he

/-- The selection on the whole enumeration: `none` with no matching node, else the first
matching node of maximal score. -/
theorem select_best_spec (to_lower : String → String) (info : List hid_device_info) :
    (select_best to_lower info = none ∧
      ∀ d ∈ info, matches_spacemouse to_lower d = false) ∨
    ∃ k d, info[k]? = some d ∧ select_best to_lower info = some k ∧
      matches_spacemouse to_lower d = true ∧
      (∀ (j : Nat) e, info[j]? = some e → matches_spacemouse to_lower e = true →
        candidate_score to_lower e ≤ candidate_score to_lower d) ∧
      (∀ (j : Nat) e, j < k → info[j]? = some e → matches_spacemouse to_lower e = true →
        candidate_score to_lower e < candidate_score to_lower d) := by
  unfold select_best
  rcases select_loop_spec to_lower info 0 none (-1) with ⟨heq, hall⟩ | ⟨k, d, hk, heq, hmd, _, hmax, hfirst⟩
  · left
    refine ⟨by rw [heq], ?_⟩
    intro d hd
    by_contra hne
    have hm : matches_spacemouse to_lower d = true := by simpa using hne
    have h1 := hall d hd hm
    have h2 := claimed_score_pos to_lower d
    rw [candidate_score_eq] at h1
    omega
  · right
    refine ⟨k, d, hk, ?_, hmd, hmax, hfirst⟩
    rw [heq]
    simp

/-- C1: for every enumeration, the selection loop of `open_first` picks no node exactly when
no node matches (lower-cased manufacturer contains "3dconnexion" or lower-cased product
contains "space"), and otherwise picks a matching node whose score (100 for usage page 1
and usage 8, 80 for usage page 1 and usage 2, 60 for a usage page with high byte 0xFF, 1
otherwise, plus 20 when the lower-cased path contains "col01" or "mi_00") is at least the
score of every matching node and strictly above the score of every matching node
enumerated before it. -/
theorem open_first_selects_first_maximal (to_lower : String → String)
    (info : List hid_device_info) :
    (select_best to_lower info = none ↔ ∀ d ∈ info, ¬ claimed_match to_lower d) ∧
    (∀ i, select_best to_lower info = some i →
      ∃ d, info[i]? = some d ∧ claimed_match to_lower d ∧
        (∀ (j : Nat) e, info[j]? = some e → claimed_match to_lower e →
          claimed_score to_lower e ≤ claimed_score to_lower d) ∧
        (∀ (j : Nat) e, j < i → info[j]? = some e → claimed_match to_lower e →
          claimed_score to_lower e < claimed_score to_lower d)) := by
  rcases select_best_spec to_lower info with ⟨hnone, hall⟩ | ⟨k, d, hk, hsel, hmd, hmax, hfirst⟩
  · refine ⟨⟨fun _ d hd hc => ?_, fun _ => hnone⟩, fun i hi => ?_⟩
    · have := (matches_spacemouse_iff to_lower d).mpr hc
      rw [hall d hd] at this
      exact Bool.false_ne_true this
    · rw [hnone] at hi
      exact absurd hi (by simp)
  · refine ⟨⟨fun hn => ?_, fun hn => ?_⟩, fun i hi => ?_⟩
    · rw [hsel] at hn
      exact absurd hn (by simp)
    · exact absurd ((matches_spacemouse_iff to_lower d).mp hmd)
        (hn d (List.getElem?_mem hk))
    · rw [hsel] at hi
      have hik : k = i := by simpa using hi
      subst hik
      refine ⟨d, hk, (matches_spacemouse_iff to_lower d).mp hmd, ?_, ?_⟩
      · intro j e hj he
        have := hmax j e hj ((matches_spacemouse_iff to_lower e).mpr he)
        simpa [candidate_score_eq] using this
      · intro j e hjk hj he
        have := hfirst j e hjk hj ((matches_spacemouse_iff to_lower e).mpr he)
        simpa [candidate_score_eq] using this

theorem first_collection_iff (to_lower : String → String) (d : hid_device_info) :
    first_collection to_lower d ↔
      (String_find (to_lower d.path) "col01" != -1 ||
        String_find (to_lower d.path) "mi_00" != -1) = true := by
  unfold first_collection
  rw [Bool.or_eq_true, String_find_ne_iff _ "col01" (by decide),
    String_find_ne_iff _ "mi_00" (by decide)]

/-- C2, as stated, fails: with the mouse node enumerated first and carrying the "col01"
marker that the multi-axis node lacks, both score 100 and the loop keeps the mouse node. -/
theorem mouse_first_collection_kept :
    matches_spacemouse ascii_to_lower multi_axis_node = true ∧
    matches_spacemouse ascii_to_lower mouse_node = true ∧
    (multi_axis_node.usage_page.val = 1 ∧ multi_axis_node.usage.val = 8) ∧
    (mouse_node.usage_page.val = 1 ∧ mouse_node.usage.val = 2) ∧
    candidate_score ascii_to_lower multi_axis_node = 100 ∧
    candidate_score ascii_to_lower mouse_node = 100 ∧
    select_best ascii_to_lower [mouse_node, multi_axis_node] = some 0 ∧
    [mouse_node, multi_axis_node][0]? = some mouse_node := by
  decide

/-- C2 (amended): for two matching nodes, `a` with usage page 1 and usage 8 and `b` with
usage page 1 and usage 2, the selection chooses `a` when `a` is enumerated first, whatever
the paths; when `b` is enumerated first it chooses `a` except in the one case where the
path of `b` carries the first-collection marker and the path of `a` does not, where both
score 100 and the node met first, `b`, is kept. -/
theorem multi_axis_preferred_up_to_tie (to_lower : String → String) (a b : hid_device_info)
    (ha : claimed_match to_lower a) (hb : claimed_match to_lower b)
    (hau : a.usage_page.val = 1 ∧ a.usage.val = 8)
    (hbu : b.usage_page.val = 1 ∧ b.usage.val = 2) :
    select_best to_lower [a, b] = some 0 ∧
    (select_best to_lower [b, a] = some 1 ↔
      ¬ (first_collection to_lower b ∧ ¬ first_collection to_lower a)) ∧
    (select_best to_lower [b, a] = some 0 ↔
      (first_collection to_lower b ∧ ¬ first_collection to_lower a)) := by
  have hma := (matches_spacemouse_iff to_lower a).mpr ha
  have hmb := (matches_spacemouse_iff to_lower b).mpr hb
  have hsa : candidate_score to_lower a =
      if first_collection to_lower a then 120 else 100 := by
    have hf := first_collection_iff to_lower a
    unfold candidate_score
    by_cases f : first_collection to_lower a
    · simp [f, hf.mp f, hau.1, hau.2]
    · have g := mt hf.mpr f
      simp only [Bool.or_eq_true, bne_iff_ne, not_or, not_not] at g
      simp [f, g.1, g.2, hau.1, hau.2]
  have hsb : candidate_score to_lower b =
      if first_collection to_lower b then 100 else 80 := by
    have hf := first_collection_iff to_lower b
    unfold candidate_score
    by_cases f : first_collection to_lower b
    · simp [f, hf.mp f, hbu.1, hbu.2]
    · have g := mt hf.mpr f
      simp only [Bool.or_eq_true, bne_iff_ne, not_or, not_not] at g
      simp [f, g.1, g.2, hbu.1, hbu.2]
  unfold select_best
  simp only [select_loop, hma, hmb, hsa, hsb]
  by_cases fa : first_collection to_lower a <;> by_cases fb : first_collection to_lower b <;>
    simp [fa, fb]

/-- The amended C2 at the two nodes of the counterexample, in the order that keeps the
multi-axis node. -/
theorem multi_axis_preferred_up_to_tie_witness :
    select_best ascii_to_lower [multi_axis_node, mouse_node] = some 0 ∧
    (select_best ascii_to_lower [mouse_node, multi_axis_node] = some 1 ↔
      ¬ (first_collection ascii_to_lower mouse_node ∧
        ¬ first_collection ascii_to_lower multi_axis_node)) ∧
    (select_best ascii_to_lower [mouse_node, multi_axis_node] = some 0 ↔
      (first_collection ascii_to_lower mouse_node ∧
        ¬ first_collection ascii_to_lower multi_axis_node)) :=
  multi_axis_preferred_up_to_tie ascii_to_lower multi_axis_node mouse_node
    ((matches_spacemouse_iff ascii_to_lower multi_axis_node).mp (by decide))
    ((matches_spacemouse_iff ascii_to_lower mouse_node).mp (by decide))
    ⟨by decide, by decide⟩ ⟨by decide, by decide⟩

/-! ## Theorems: report decoder -/

theorem get_last_report_hex_free (s : SpaceMouseDevice) (h : s.state_mutex = false) :
    (get_last_report_hex s).map Prod.snd = some s := by
  obtain ⟨device, reader_joinable, running, enabled, connected, raw_logging, last_report_id,
    usage_page, usage, device_path, last_read_result, last_error, read_count, error_count,
    loop_count, last_tick_ms, thread_alive, state_mutex, translation, rotation, buttons,
    last_report, seen_reports⟩ := s
  simp only at h
  subst h
  by_cases he : last_report = [] <;> simp [get_last_report_hex, lock, unlock, he]

/-- The call made for the log line leaves the session as it is. -/
theorem logging_tail_free (s : SpaceMouseDevice) (h : s.state_mutex = false) :
    (if s.raw_logging = true then (get_last_report_hex s).map Prod.snd else some s) = some s := by
  rw [get_last_report_hex_free s h]
  simp

/-- Combined branch: id 0x01 with at least 13 bytes. -/
theorem handle_report_combined (s : SpaceMouseDevice) (p_data : List uint8_t)
    (hm : s.state_mutex = false) (hid : p_data[0]? = some 1) (hlen : 13 ≤ p_data.length) :
    handle_report s p_data = some { recorded s p_data with
      translation :=
        if (Vector3.mk (read_le_i16 (p_data.drop 1)) (read_le_i16 (p_data.drop 3))
              (read_le_i16 (p_data.drop 5))).length_squared < 1 ∧
            1 ≤ (Vector3.mk (read_le_i16 (p_data.drop 7)) (read_le_i16 (p_data.drop 9))
              (read_le_i16 (p_data.drop 11))).length_squared
        then ⟨read_le_i16 (p_data.drop 7), read_le_i16 (p_data.drop 9),
          read_le_i16 (p_data.drop 11)⟩
        else ⟨read_le_i16 (p_data.drop 1), read_le_i16 (p_data.drop 3),
          read_le_i16 (p_data.drop 5)⟩
      rotation :=
        if (Vector3.mk (read_le_i16 (p_data.drop 7)) (read_le_i16 (p_data.drop 9))
              (read_le_i16 (p_data.drop 11))).length_squared < 1 ∧
            1 ≤ (Vector3.mk (read_le_i16 (p_data.drop 1)) (read_le_i16 (p_data.drop 3))
              (read_le_i16 (p_data.drop 5))).length_squared
        then ⟨read_le_i16 (p_data.drop 1), read_le_i16 (p_data.drop 3),
          read_le_i16 (p_data.drop 5)⟩
        else ⟨read_le_i16 (p_data.drop 7), read_le_i16 (p_data.drop 9),
          read_le_i16 (p_data.drop 11)⟩ } := by
  obtain ⟨device, reader_joinable, running, enabled, connected, raw_logging, last_report_id,
    usage_page, usage, device_path, last_read_result, last_error, read_count, error_count,
    loop_count, last_tick_ms, thread_alive, state_mutex, translation, rotation, buttons,
    last_report, seen_reports⟩ := s
  simp only at hm
  subst hm
  have hl : p_data.length ≠ 0 := by omega
  have h0 : p_data.getD 0 0 = 1 := by simp [hid]
  unfold handle_report
  simp only [hl, if_false, h0, lock, unlock, recorded]
  simp [hlen, get_last_report_hex, lock, unlock]
  by_cases hr : raw_logging = true <;> by_cases he : p_data = [] <;> simp [hr, he]

theorem uint8_val_2 : ((2 : uint8_t) : Nat) = 2 := rfl
theorem uint8_val_3 : ((3 : uint8_t) : Nat) = 3 := rfl
theorem uint8_val_4 : ((4 : uint8_t) : Nat) = 4 := rfl
theorem uint8_val_5 : ((5 : uint8_t) : Nat) = 5 := rfl
theorem uint8_val_6 : ((6 : uint8_t) : Nat) = 6 := rfl

/-- Translation-only branch: id 0x01 with 7 to 12 bytes. -/
theorem handle_report_translation (s : SpaceMouseDevice) (p_data : List uint8_t)
    (hm : s.state_mutex = false) (hid : p_data[0]? = some 1) (hlen : 7 ≤ p_data.length)
    (hlt : p_data.length < 13) :
    handle_report s p_data = some { recorded s p_data with
      translation := ⟨read_le_i16 (p_data.drop 1), read_le_i16 (p_data.drop 3),
        read_le_i16 (p_data.drop 5)⟩ } := by
  obtain ⟨device, reader_joinable, running, enabled, connected, raw_logging, last_report_id,
    usage_page, usage, device_path, last_read_result, last_error, read_count, error_count,
    loop_count, last_tick_ms, thread_alive, state_mutex, translation, rotation, buttons,
    last_report, seen_reports⟩ := s
  simp only at hm
  subst hm
  have hl : p_data.length ≠ 0 := by omega
  have h13 : ¬ 13 ≤ p_data.length := by omega
  have h0 : p_data.getD 0 0 = 1 := by simp [hid]
  unfold handle_report
  simp only [hl, if_false, h0, lock, unlock, recorded, handle_translation]
  simp [hlen, h13, get_last_report_hex, lock, unlock, uint8_val_2, uint8_val_3, uint8_val_4,
      uint8_val_5, uint8_val_6]
  by_cases hr : raw_logging = true <;> by_cases he : p_data = [] <;> simp [hr, he]

/-- Rotation-only branch: id 0x02 or 0x04 with at least 7 bytes. -/
theorem handle_report_rotation (s : SpaceMouseDevice) (p_data : List uint8_t) (id : uint8_t)
    (hm : s.state_mutex = false) (hid : p_data[0]? = some id) (h24 : id = 2 ∨ id = 4)
    (hlen : 7 ≤ p_data.length) :
    handle_report s p_data = some { recorded s p_data with
      rotation := ⟨read_le_i16 (p_data.drop 1), read_le_i16 (p_data.drop 3),
        read_le_i16 (p_data.drop 5)⟩ } := by
  obtain ⟨device, reader_joinable, running, enabled, connected, raw_logging, last_report_id,
    usage_page, usage, device_path, last_read_result, last_error, read_count, error_count,
    loop_count, last_tick_ms, thread_alive, state_mutex, translation, rotation, buttons,
    last_report, seen_reports⟩ := s
  simp only at hm
  subst hm
  have hl : p_data.length ≠ 0 := by omega
  have h0 : p_data.getD 0 0 = id := by simp [hid]
  unfold handle_report
  simp only [hl, if_false, h0, lock, unlock, recorded, handle_rotation]
  rcases h24 with rfl | rfl <;>
    simp [hlen, get_last_report_hex, lock, unlock, uint8_val_2, uint8_val_3, uint8_val_4,
      uint8_val_5, uint8_val_6] <;>
    by_cases hr : raw_logging = true <;> by_cases he : p_data = [] <;> simp [hr, he]

/-- Button branch: id 0x03, 0x05 or 0x06 with at least 2 bytes, id 0x04 with 2 to 6. -/
theorem handle_report_buttons (s : SpaceMouseDevice) (p_data : List uint8_t) (id : uint8_t)
    (hm : s.state_mutex = false) (hid : p_data[0]? = some id)
    (hb : (id = 3 ∨ id = 5 ∨ id = 6) ∨ (id = 4 ∧ p_data.length < 7))
    (hlen : 2 ≤ p_data.length) :
    handle_report s p_data = some { recorded s p_data with
      buttons := buttons_of_mask (buttons_mask (p_data.drop 1) (min (p_data.length - 1) 4)) } := by
  obtain ⟨device, reader_joinable, running, enabled, connected, raw_logging, last_report_id,
    usage_page, usage, device_path, last_read_result, last_error, read_count, error_count,
    loop_count, last_tick_ms, thread_alive, state_mutex, translation, rotation, buttons,
    last_report, seen_reports⟩ := s
  simp only at hm
  subst hm
  have hl : p_data.length ≠ 0 := by omega
  have h0 : p_data.getD 0 0 = id := by simp [hid]
  unfold handle_report
  simp only [hl, if_false, h0, lock, unlock, recorded, handle_buttons]
  rcases hb with (rfl | rfl | rfl) | ⟨rfl, h7⟩
  all_goals
    first
      | have h7' : ¬ 7 ≤ p_data.length := by omega
        simp [hlen, h7', get_last_report_hex, lock, unlock, uint8_val_2, uint8_val_3, uint8_val_4,
      uint8_val_5, uint8_val_6]
      | simp [hlen, get_last_report_hex, lock, unlock, uint8_val_2, uint8_val_3, uint8_val_4,
      uint8_val_5, uint8_val_6]
  all_goals
    by_cases hr : raw_logging = true <;> by_cases he : p_data = [] <;> simp [hr, he]

/-- No decoding branch: an id outside 0x01..0x06, or a report too short for its id. -/
theorem handle_report_ignored (s : SpaceMouseDevice) (p_data : List uint8_t) (id : uint8_t)
    (hm : s.state_mutex = false) (hid : p_data[0]? = some id)
    (hi : (id ≠ 1 ∧ id ≠ 2 ∧ id ≠ 3 ∧ id ≠ 4 ∧ id ≠ 5 ∧ id ≠ 6) ∨
      ((id = 1 ∨ id = 2) ∧ p_data.length < 7) ∨
      ((id = 3 ∨ id = 4 ∨ id = 5 ∨ id = 6) ∧ p_data.length < 2)) :
    handle_report s p_data = some (recorded s p_data) := by
  obtain ⟨device, reader_joinable, running, enabled, connected, raw_logging, last_report_id,
    usage_page, usage, device_path, last_read_result, last_error, read_count, error_count,
    loop_count, last_tick_ms, thread_alive, state_mutex, translation, rotation, buttons,
    last_report, seen_reports⟩ := s
  simp only at hm
  subst hm
  have hl : p_data.length ≠ 0 := by
    intro h
    rw [List.length_eq_zero] at h
    subst h
    simp at hid
  have h0 : p_data.getD 0 0 = id := by simp [hid]
  unfold handle_report
  simp only [hl, if_false, h0, lock, unlock, recorded]
  rcases hi with ⟨n1, n2, n3, n4, n5, n6⟩ | ⟨h12, h7⟩ | ⟨h36, h2⟩
  · have v1 : id.val ≠ 1 := fun h => n1 (Fin.ext h)
    have v2 : id.val ≠ 2 := fun h => n2 (Fin.ext h)
    have v3 : id.val ≠ 3 := fun h => n3 (Fin.ext h)
    have v4 : id.val ≠ 4 := fun h => n4 (Fin.ext h)
    have v5 : id.val ≠ 5 := fun h => n5 (Fin.ext h)
    have v6 : id.val ≠ 6 := fun h => n6 (Fin.ext h)
    simp [v1, v2, v3, v4, v5, v6, get_last_report_hex, lock, unlock, uint8_val_2, uint8_val_3, uint8_val_4,
      uint8_val_5, uint8_val_6]
    by_cases hr : raw_logging = true <;> by_cases he : p_data = [] <;> simp [hr, he]
  · have h7' : ¬ 7 ≤ p_data.length := by omega
    have h13 : ¬ 13 ≤ p_data.length := by omega
    rcases h12 with rfl | rfl <;>
      simp [h7', h13, get_last_report_hex, lock, unlock, uint8_val_2, uint8_val_3, uint8_val_4,
      uint8_val_5, uint8_val_6] <;>
      by_cases hr : raw_logging = true <;> by_cases he : p_data = [] <;> simp [hr, he]
  · have h2' : ¬ 2 ≤ p_data.length := by omega
    have h7' : ¬ 7 ≤ p_data.length := by omega
    rcases h36 with rfl | rfl | rfl | rfl <;>
      simp [h2', h7', get_last_report_hex, lock, unlock, uint8_val_2, uint8_val_3, uint8_val_4,
      uint8_val_5, uint8_val_6] <;>
      by_cases hr : raw_logging = true <;> by_cases he : p_data = [] <;> simp [hr, he]

theorem or_shift8_eq (a b : Nat) (ha : a < 256) : a ||| (b <<< 8) = a + 256 * b := by
  rw [Nat.shiftLeft_eq, Nat.lor_comm, Nat.mul_comm b]
  have := Nat.mul_add_lt_is_or (i := 8) (b := a) (by simpa using ha) b
  simp only [Nat.reducePow] at this ⊢
  omega

theorem read_le_i16_drop (p_data : List uint8_t) (k : Nat) :
    read_le_i16 (p_data.drop k) = le_int16 (p_data.getD k 0) (p_data.getD (k + 1) 0) := by
  unfold read_le_i16 le_int16
  have e0 : (p_data.drop k).getD 0 0 = p_data.getD k 0 := by simp [List.getD_eq_getElem?_getD]
  have e1 : (p_data.drop k).getD 1 0 = p_data.getD (k + 1) 0 := by simp [List.getD_eq_getElem?_getD]
  rw [e0, e1, or_shift8_eq _ _ (p_data.getD k 0).isLt]
  have h0 := (p_data.getD k 0).isLt
  have h1 := (p_data.getD (k + 1) 0).isLt
  have hmod : ((p_data.getD k 0).val + 256 * (p_data.getD (k + 1) 0).val) % 65536 =
      (p_data.getD k 0).val + 256 * (p_data.getD (k + 1) 0).val := Nat.mod_eq_of_lt (by omega)
  simp only [hmod]
  split_ifs <;> omega

theorem length_squared_lt_one (v : Vector3) : v.length_squared < 1 ↔ v = Vector3.zero := by
  obtain ⟨x, y, z⟩ := v
  simp only [Vector3.length_squared, Vector3.zero, Vector3.mk.injEq]
  constructor
  · intro h
    have hx := mul_self_nonneg x
    have hy := mul_self_nonneg y
    have hz := mul_self_nonneg z
    refine ⟨?_, ?_, ?_⟩
    · by_contra hne
      have : 0 < x * x := mul_self_pos.mpr hne
      omega
    · by_contra hne
      have : 0 < y * y := mul_self_pos.mpr hne
      omega
    · by_contra hne
      have : 0 < z * z := mul_self_pos.mpr hne
      omega
  · rintro ⟨rfl, rfl, rfl⟩
    simp

theorem land_two_pow_ne_zero (m i : Nat) : (m &&& 2 ^ i != 0) = m.testBit i := by
  cases h : m.testBit i with
  | true =>
    have : (m &&& 2 ^ i).testBit i = true := by
      simp [Nat.testBit_and, h, Nat.testBit_two_pow_self]
    have hne : m &&& 2 ^ i ≠ 0 := by
      intro h0
      rw [h0] at this
      simp at this
    simpa using hne
  | false =>
    have : m &&& 2 ^ i = 0 := by
      apply Nat.eq_of_testBit_eq
      intro j
      simp only [Nat.testBit_and, Nat.testBit_two_pow, Nat.zero_testBit]
      by_cases hij : i = j
      · subst hij; simp [h]
      · simp [hij]
    simp [this]

theorem buttons_fold_eq (mask : Nat) (l : List Nat) (hl : ∀ i ∈ l, i < 32) (acc : List Int) :
    l.foldl (fun btns i =>
        if mask &&& ((1 <<< i) % 2 ^ 32) != 0 then btns ++ [(i : Int)] else btns) acc =
      acc ++ (l.filter fun i => mask.testBit i).map Int.ofNat := by
  induction l generalizing acc with
  | nil => simp
  | cons i l ih =>
    have hi : i < 32 := hl i (List.mem_cons_self i l)
    have hpow : (1 <<< i) % 2 ^ 32 = 2 ^ i := by
      rw [Nat.one_shiftLeft]
      exact Nat.mod_eq_of_lt (Nat.pow_lt_pow_right (by decide) hi)
    rw [List.foldl_cons, hpow, land_two_pow_ne_zero, ih (fun j hj => hl j (List.mem_cons_of_mem i hj))]
    cases h : mask.testBit i <;> simp [List.filter_cons, h]

theorem buttons_of_mask_eq (mask : Nat) :
    buttons_of_mask mask = ((List.range 32).filter fun i => mask.testBit i).map Int.ofNat := by
  unfold buttons_of_mask
  rw [buttons_fold_eq mask (List.range 32) (fun i hi => List.mem_range.mp hi) []]
  simp

theorem or_shift_eq (a b k : Nat) (ha : a < 2 ^ k) : a ||| (b <<< k) = a + 2 ^ k * b := by
  rw [Nat.shiftLeft_eq, Nat.lor_comm, Nat.mul_comm b]
  have := Nat.mul_add_lt_is_or ha b
  omega

theorem buttons_mask_eq (q : List uint8_t) :
    buttons_mask q (min q.length 4) = le_mask (q.take 4) := by
  unfold buttons_mask
  match q with
  | [] => simp [le_mask]
  | [a] =>
    have ha := a.isLt
    simp [le_mask, List.range_succ]
    omega
  | [a, b] =>
    have ha := a.isLt
    have hb := b.isLt
    simp [le_mask, List.range_succ]
    have h1 : b.val <<< 8 % 4294967296 = b.val <<< 8 := by
      rw [Nat.shiftLeft_eq]; omega
    have h0 : a.val % 4294967296 = a.val := by omega
    rw [h0, h1, or_shift_eq _ _ 8 (by simp)]
    omega
  | [a, b, c] =>
    have ha := a.isLt
    have hb := b.isLt
    have hc := c.isLt
    simp [le_mask, List.range_succ]
    have h0 : a.val % 4294967296 = a.val := by omega
    have h1 : b.val <<< 8 % 4294967296 = b.val <<< 8 := by
      rw [Nat.shiftLeft_eq]; omega
    have h2 : c.val <<< 16 % 4294967296 = c.val <<< 16 := by
      rw [Nat.shiftLeft_eq]; omega
    rw [h0, h1, h2, or_shift_eq _ _ 8 (by simp), or_shift_eq _ _ 16 (by omega)]
    omega
  | a :: b :: c :: d :: rest =>
    have ha := a.isLt
    have hb := b.isLt
    have hc := c.isLt
    have hd := d.isLt
    simp [le_mask, List.range_succ]
    have h0 : a.val % 4294967296 = a.val := by omega
    have h1 : b.val <<< 8 % 4294967296 = b.val <<< 8 := by
      rw [Nat.shiftLeft_eq]; omega
    have h2 : c.val <<< 16 % 4294967296 = c.val <<< 16 := by
      rw [Nat.shiftLeft_eq]; omega
    have h3 : d.val <<< 24 % 4294967296 = d.val <<< 24 := by
      rw [Nat.shiftLeft_eq]; omega
    rw [h0, h1, h2, h3, or_shift_eq _ _ 8 (by simp), or_shift_eq _ _ 16 (by omega),
      or_shift_eq _ _ 24 (by omega)]
    omega

theorem claimed_buttons_ascending (p_data : List uint8_t) :
    (claimed_buttons p_data).Pairwise (· < ·) := by
  unfold claimed_buttons
  rw [List.pairwise_map]
  apply List.Pairwise.filter
  exact (List.pairwise_lt_range 32).imp fun h => Int.ofNat_lt.mpr h

theorem seen_count_increment_self (m : List (uint8_t × Int)) (k : uint8_t) :
    seen_count (seen_increment m k) k = seen_count m k + 1 := by
  induction m with
  | nil => simp [seen_increment, seen_count]
  | cons e m ih =>
    obtain ⟨k', n⟩ := e
    by_cases h : k' = k
    · simp [seen_increment, seen_count, h]
    · simp [seen_increment, seen_count, h, ih]

theorem seen_count_increment_other (m : List (uint8_t × Int)) (k j : uint8_t) (hj : j ≠ k) :
    seen_count (seen_increment m k) j = seen_count m j := by
  induction m with
  | nil =>
    have : ¬ k = j := fun h => hj h.symm
    simp [seen_increment, seen_count, this]
  | cons e m ih =>
    obtain ⟨k', n⟩ := e
    by_cases h : k' = k
    · have : ¬ k = j := fun h => hj h.symm
      simp [seen_increment, seen_count, h, this]
    · by_cases h' : k' = j
      · subst h'
        simp [seen_increment, seen_count, h]
      · simp [seen_increment, seen_count, h, h', ih]

/-- Every non-empty report, the mutex being free: the result is the bookkeeping state
with some translation, rotation and button list. -/
theorem handle_report_recorded (s : SpaceMouseDevice) (p_data : List uint8_t)
    (hm : s.state_mutex = false) (hne : p_data ≠ []) :
    ∃ t r b, handle_report s p_data =
      some { recorded s p_data with translation := t, rotation := r, buttons := b } := by
  obtain ⟨id, hid⟩ : ∃ id, p_data[0]? = some id := by
    cases p_data with
    | nil => exact absurd rfl hne
    | cons a l => exact ⟨a, by simp⟩
  by_cases h1 : id = 1
  · subst h1
    by_cases h13 : 13 ≤ p_data.length
    · exact ⟨_, _, _, handle_report_combined s p_data hm hid h13⟩
    · by_cases h7 : 7 ≤ p_data.length
      · exact ⟨_, _, _, handle_report_translation s p_data hm hid h7 (by omega)⟩
      · exact ⟨_, _, _, handle_report_ignored s p_data 1 hm hid
          (Or.inr (Or.inl ⟨Or.inl rfl, by omega⟩))⟩
  by_cases h2 : id = 2
  · by_cases h7 : 7 ≤ p_data.length
    · exact ⟨_, _, _, handle_report_rotation s p_data id hm hid (Or.inl h2) h7⟩
    · exact ⟨_, _, _, handle_report_ignored s p_data id hm hid
        (Or.inr (Or.inl ⟨Or.inr h2, by omega⟩))⟩
  by_cases h4 : id = 4
  · by_cases h7 : 7 ≤ p_data.length
    · exact ⟨_, _, _, handle_report_rotation s p_data id hm hid (Or.inr h4) h7⟩
    · by_cases h2l : 2 ≤ p_data.length
      · exact ⟨_, _, _, handle_report_buttons s p_data id hm hid
          (Or.inr ⟨h4, by omega⟩) h2l⟩
      · exact ⟨_, _, _, handle_report_ignored s p_data id hm hid
          (Or.inr (Or.inr ⟨Or.inr (Or.inl h4), by omega⟩))⟩
  by_cases h356 : id = 3 ∨ id = 5 ∨ id = 6
  · by_cases h2l : 2 ≤ p_data.length
    · exact ⟨_, _, _, handle_report_buttons s p_data id hm hid (Or.inl h356) h2l⟩
    · refine ⟨_, _, _, handle_report_ignored s p_data id hm hid (Or.inr (Or.inr ⟨?_, by omega⟩))⟩
      rcases h356 with h | h | h
      · exact Or.inl h
      · exact Or.inr (Or.inr (Or.inl h))
      · exact Or.inr (Or.inr (Or.inr h))
  · simp only [not_or] at h356
    exact ⟨_, _, _, handle_report_ignored s p_data id hm hid
      (Or.inl ⟨h1, h2, h356.1, h4, h356.2.1, h356.2.2⟩)⟩

theorem read_triplet_eq (p_data : List uint8_t) (k : Nat) :
    Vector3.mk (read_le_i16 (p_data.drop k)) (read_le_i16 (p_data.drop (k + 2)))
      (read_le_i16 (p_data.drop (k + 4))) = triplet_at p_data k := by
  simp only [read_le_i16_drop, triplet_at]

/-- C3: for a report with id 0x01 and at least 13 bytes, A being the triplet at bytes 1-6
and B the triplet at bytes 7-12, `handle_report` returns with translation A unless A is
all-zero and B is not, where it is B, and with rotation B unless B is all-zero and A is
not, where it is A; so when B is all zeros and A is not, rotation is A and translation is
still A. -/
theorem combined_report_heuristic (s : SpaceMouseDevice) (p_data : List uint8_t)
    (hm : s.state_mutex = false) (hid : p_data[0]? = some 1) (hlen : 13 ≤ p_data.length) :
    ∃ s', handle_report s p_data = some s' ∧
      s'.translation =
        (if triplet_at p_data 1 = Vector3.zero ∧ triplet_at p_data 7 ≠ Vector3.zero
          then triplet_at p_data 7 else triplet_at p_data 1) ∧
      s'.rotation =
        (if triplet_at p_data 7 = Vector3.zero ∧ triplet_at p_data 1 ≠ Vector3.zero
          then triplet_at p_data 1 else triplet_at p_data 7) ∧
      (triplet_at p_data 7 = Vector3.zero → triplet_at p_data 1 ≠ Vector3.zero →
        s'.rotation = triplet_at p_data 1 ∧ s'.translation = triplet_at p_data 1) := by
  have hA := read_triplet_eq p_data 1
  have hB := read_triplet_eq p_data 7
  simp only [Nat.reduceAdd] at hA hB
  have key := handle_report_combined s p_data hm hid hlen
  rw [hA, hB] at key
  have hge : ∀ v : Vector3, 1 ≤ v.length_squared ↔ v ≠ Vector3.zero := by
    intro v
    have := length_squared_lt_one v
    constructor
    · intro h hz
      have := this.mpr hz
      omega
    · intro h
      by_contra hlt
      exact h (this.mp (by omega))
  simp only [length_squared_lt_one, hge] at key
  refine ⟨_, key, rfl, rfl, ?_⟩
  intro hBz hAnz
  simp [hBz, hAnz]

/-- C3 at a report whose second block is zero: rotation and translation are both the
first block (1, 2, -1). -/
theorem combined_report_heuristic_witness :
    ∃ s', handle_report SpaceMouseDevice.init [1, 1, 0, 2, 0, 255, 255, 0, 0, 0, 0, 0, 0] = some s' ∧
      s'.translation = ⟨1, 2, -1⟩ ∧ s'.rotation = ⟨1, 2, -1⟩ := by
  obtain ⟨s', h, ht, hr, _⟩ := combined_report_heuristic SpaceMouseDevice.init
    [1, 1, 0, 2, 0, 255, 255, 0, 0, 0, 0, 0, 0] rfl (by decide) (by decide)
  refine ⟨s', h, ?_, ?_⟩
  · rw [ht]; decide
  · rw [hr]; decide

/-- C4: for a report with id 0x03, 0x05 or 0x06 and at least 2 bytes, or with id 0x04 and 2
to 6 bytes, `handle_report` returns with the button list equal, whatever it was before, to
the ascending list of the indices 0..31 of the bits set in the little-endian mask spelled
by the first min(4, size-1) bytes after the id; the list is strictly ascending, holds
exactly those indices, and is empty for a zero mask. -/
theorem button_report_decode (s : SpaceMouseDevice) (p_data : List uint8_t) (id : uint8_t)
    (hm : s.state_mutex = false) (hid : p_data[0]? = some id)
    (hb : (id = 3 ∨ id = 5 ∨ id = 6) ∨ (id = 4 ∧ p_data.length ≤ 6))
    (hlen : 2 ≤ p_data.length) :
    ∃ s', handle_report s p_data = some s' ∧
      s'.buttons = claimed_buttons p_data ∧
      s'.buttons.Pairwise (· < ·) ∧
      (∀ i : Int, i ∈ s'.buttons ↔
        ∃ n : Nat, n < 32 ∧ i = n ∧ (le_mask ((p_data.drop 1).take 4)).testBit n = true) ∧
      (le_mask ((p_data.drop 1).take 4) = 0 → s'.buttons = []) := by
  have hb' : (id = 3 ∨ id = 5 ∨ id = 6) ∨ (id = 4 ∧ p_data.length < 7) := by
    rcases hb with h | ⟨h, h6⟩
    · exact Or.inl h
    · exact Or.inr ⟨h, by omega⟩
  have key := handle_report_buttons s p_data id hm hid hb' hlen
  have hlen1 : p_data.length - 1 = (p_data.drop 1).length := by simp
  rw [hlen1, buttons_mask_eq, buttons_of_mask_eq] at key
  refine ⟨_, key, rfl, claimed_buttons_ascending p_data, ?_, ?_⟩
  · intro i
    simp only [List.mem_map, List.mem_filter, List.mem_range]
    constructor
    · rintro ⟨n, ⟨hn, hbit⟩, rfl⟩
      exact ⟨n, hn, rfl, hbit⟩
    · rintro ⟨n, hn, rfl, hbit⟩
      exact ⟨n, ⟨hn, hbit⟩, rfl⟩
  · intro h0
    show claimed_buttons p_data = []
    unfold claimed_buttons
    rw [h0]
    simp

/-- C4 at the report `[0x05, 0x02]`, with a previous button list `[7]`: the list is `[1]`. -/
theorem button_report_decode_witness :
    ∃ s', handle_report { SpaceMouseDevice.init with buttons := [7] } [0x05, 0x02] = some s' ∧
      s'.buttons = [1] := by
  obtain ⟨s', h, hbt, _⟩ := button_report_decode { SpaceMouseDevice.init with buttons := [7] }
    [0x05, 0x02] 5 rfl (by decide) (Or.inl (Or.inr (Or.inl rfl))) (by decide)
  refine ⟨s', h, ?_⟩
  rw [hbt]
  decide

/-- C5: a report with id 0x01 and 7 to 12 bytes sets translation to the triplet at bytes
1-6 and leaves rotation and buttons unchanged; a report with id 0x02 or 0x04 and at least
7 bytes sets rotation to the triplet at bytes 1-6 and leaves translation and buttons
unchanged. -/
theorem single_block_reports (s : SpaceMouseDevice) (p_data : List uint8_t)
    (hm : s.state_mutex = false) (hlen : 7 ≤ p_data.length) :
    (p_data[0]? = some 1 → p_data.length ≤ 12 →
      ∃ s', handle_report s p_data = some s' ∧ s'.translation = triplet_at p_data 1 ∧
        s'.rotation = s.rotation ∧ s'.buttons = s.buttons) ∧
    (p_data[0]? = some 2 ∨ p_data[0]? = some 4 →
      ∃ s', handle_report s p_data = some s' ∧ s'.rotation = triplet_at p_data 1 ∧
        s'.translation = s.translation ∧ s'.buttons = s.buttons) := by
  have hA := read_triplet_eq p_data 1
  simp only [Nat.reduceAdd] at hA
  constructor
  · intro hid h12
    have key := handle_report_translation s p_data hm hid hlen (by omega)
    rw [hA] at key
    exact ⟨_, key, rfl, rfl, rfl⟩
  · intro hid
    have key : handle_report s p_data = some { recorded s p_data with
        rotation := ⟨read_le_i16 (p_data.drop 1), read_le_i16 (p_data.drop 3),
          read_le_i16 (p_data.drop 5)⟩ } := by
      rcases hid with hid | hid
      · exact handle_report_rotation s p_data 2 hm hid (Or.inl rfl) hlen
      · exact handle_report_rotation s p_data 4 hm hid (Or.inr rfl) hlen
    rw [hA] at key
    exact ⟨_, key, rfl, rfl, rfl⟩

/-- C5 at a 7-byte report with id 0x04, on a session holding translation (5, 6, 7) and
button 3: rotation becomes (1, -1, 256), the rest is kept. -/
theorem single_block_reports_witness :
    ∃ s', handle_report
        { SpaceMouseDevice.init with translation := ⟨5, 6, 7⟩, buttons := [3] }
        [4, 1, 0, 255, 255, 0, 1] = some s' ∧
      s'.rotation = ⟨1, -1, 256⟩ ∧ s'.translation = ⟨5, 6, 7⟩ ∧ s'.buttons = [3] := by
  obtain ⟨s', h, hr, ht, hbt⟩ := (single_block_reports
    { SpaceMouseDevice.init with translation := ⟨5, 6, 7⟩, buttons := [3] }
    [4, 1, 0, 255, 255, 0, 1] rfl (by decide)).2 (Or.inr (by decide))
  refine ⟨s', h, ?_, ht, hbt⟩
  rw [hr]
  decide

/-- C6: a non-empty report whose id is outside 0x01..0x06, or that has fewer than 7 bytes
with id 0x01 or 0x02, or fewer than 2 bytes with id 0x03, 0x04, 0x05 or 0x06, leaves
translation, rotation and buttons as they were. -/
theorem ignored_report_keeps_motion (s : SpaceMouseDevice) (p_data : List uint8_t)
    (id : uint8_t) (hm : s.state_mutex = false) (hid : p_data[0]? = some id)
    (hi : (id ≠ 1 ∧ id ≠ 2 ∧ id ≠ 3 ∧ id ≠ 4 ∧ id ≠ 5 ∧ id ≠ 6) ∨
      ((id = 1 ∨ id = 2) ∧ p_data.length < 7) ∨
      ((id = 3 ∨ id = 4 ∨ id = 5 ∨ id = 6) ∧ p_data.length < 2)) :
    ∃ s', handle_report s p_data = some s' ∧ s'.translation = s.translation ∧
      s'.rotation = s.rotation ∧ s'.buttons = s.buttons :=
  ⟨_, handle_report_ignored s p_data id hm hid hi, rfl, rfl, rfl⟩

/-- C6 at a report with id 0x01 and a 5-byte payload, on a session holding translation
(5, 6, 7) and rotation (1, 2, 3): both are kept. -/
theorem ignored_report_keeps_motion_witness :
    ∃ s', handle_report
        { SpaceMouseDevice.init with translation := ⟨5, 6, 7⟩, rotation := ⟨1, 2, 3⟩ }
        [1, 9, 9, 9, 9, 9] = some s' ∧
      s'.translation = ⟨5, 6, 7⟩ ∧ s'.rotation = ⟨1, 2, 3⟩ ∧ s'.buttons = [] :=
  ignored_report_keeps_motion
    { SpaceMouseDevice.init with translation := ⟨5, 6, 7⟩, rotation := ⟨1, 2, 3⟩ }
    [1, 9, 9, 9, 9, 9] 1 rfl (by decide) (Or.inr (Or.inl ⟨Or.inl rfl, by decide⟩))

/-- C7: for every non-empty report, whatever its id and length, `handle_report` returns
with the last raw report equal to the report's bytes, the last report id equal to its
first byte, the seen-reports count of that id increased by one, the count of every other
id unchanged, and connected true. The count is a C++ `int`: it is taken below `INT_MAX`
before the call, and is then at most `INT_MAX` after it. -/
theorem report_bookkeeping (s : SpaceMouseDevice) (p_data : List uint8_t)
    (hm : s.state_mutex = false) (hne : p_data ≠ [])
    (hbound : seen_count s.seen_reports (p_data.getD 0 0) < INT_MAX) :
    ∃ s', handle_report s p_data = some s' ∧
      s'.last_report = p_data ∧
      p_data[0]? = some s'.last_report_id ∧
      seen_count s'.seen_reports s'.last_report_id =
        seen_count s.seen_reports s'.last_report_id + 1 ∧
      seen_count s'.seen_reports s'.last_report_id ≤ INT_MAX ∧
      (∀ k, k ≠ s'.last_report_id → seen_count s'.seen_reports k = seen_count s.seen_reports k) ∧
      s'.connected = true := by
  obtain ⟨t, r, b, key⟩ := handle_report_recorded s p_data hm hne
  have hcount := seen_count_increment_self s.seen_reports (p_data.getD 0 0)
  refine ⟨_, key, rfl, ?_, hcount, ?_, ?_, rfl⟩
  · show p_data[0]? = some (p_data.getD 0 0)
    cases p_data with
    | nil => exact absurd rfl hne
    | cons a l => simp
  · show seen_count (seen_increment s.seen_reports (p_data.getD 0 0)) (p_data.getD 0 0) ≤
      INT_MAX
    rw [hcount]
    unfold INT_MAX at hbound ⊢
    omega
  · intro k hk
    exact seen_count_increment_other s.seen_reports (p_data.getD 0 0) k hk

/-- C7 at the one-byte report `[0x2A]`, on a session that has seen id 0x2A twice and
id 0x01 once. -/
theorem report_bookkeeping_witness :
    ∃ s', handle_report { SpaceMouseDevice.init with seen_reports := [(1, 1), (0x2A, 2)] }
        [0x2A] = some s' ∧
      s'.last_report = [0x2A] ∧ s'.last_report_id = 0x2A ∧
      seen_count s'.seen_reports 0x2A = 3 ∧ seen_count s'.seen_reports 1 = 1 ∧
      s'.connected = true := by
  obtain ⟨s', h, hl, hid, hc, _, ho, hconn⟩ := report_bookkeeping
    { SpaceMouseDevice.init with seen_reports := [(1, 1), (0x2A, 2)] } [0x2A] rfl (by decide)
    (by decide)
  have hid' : s'.last_report_id = 0x2A := by
    have : some (0x2A : uint8_t) = some s'.last_report_id := hid
    exact (Option.some.inj this).symm
  rw [hid'] at hc ho
  exact ⟨s', h, hl, hid', hc, ho 1 (by decide), hconn⟩

/-! ## Theorems: polling and opening -/

/-- Called with `state_mutex` held, `handle_report` does not return on a non-empty report:
its first `lock_guard` is on the mutex the caller owns. -/
theorem handle_report_locked (s : SpaceMouseDevice) (p_data : List uint8_t)
    (hm : s.state_mutex = true) (hne : p_data ≠ []) : handle_report s p_data = none := by
  have hl : p_data.length ≠ 0 := by simpa using hne
  unfold handle_report
  simp [hl, lock, hm]

/-- C8 (the code departs from the claim): with the reader not alive, acquisition enabled
and a handle open, a `get_state` call whose first read returns a report never returns:
the poll loop holds `state_mutex` when it calls `handle_report`, which locks it again.
This holds whatever the following reads return. -/
theorem get_state_poll_never_returns (s : SpaceMouseDevice) (report : List uint8_t)
    (pending : List hid_read_result) (h : hid_device)
    (halive : s.thread_alive = false) (hen : s.enabled = true) (hdev : s.device = some h)
    (hm : s.state_mutex = false) (hres : (hid_read_result.data report).res > 0) :
    get_state s (hid_read_result.data report :: pending) = none := by
  have hne : report ≠ [] := by
    intro h0
    subst h0
    simp [hid_read_result.res] at hres
  have hpoll : poll_loop s (hid_read_result.data report :: pending) = none := by
    unfold poll_loop
    simp only [lock, hm, Bool.false_eq_true, if_false, Option.pure_def, Option.bind_eq_bind,
      Option.some_bind, hres, if_true]
    have htake : (hid_read_result.data report).bytes.take
        (hid_read_result.data report).res.toNat = report := by
      simp [hid_read_result.bytes, hid_read_result.res]
    rw [htake, handle_report_locked _ report rfl hne]
    rfl
  unfold get_state
  simp [halive, hen, hdev, hpoll]

/-- C8 at the failing input: an open, enabled session without reader, a read returning
the report `[0x05, 0x02]` and a next read returning 0. -/
theorem get_state_poll_never_returns_witness :
    get_state { SpaceMouseDevice.init with device := some 0 }
      [hid_read_result.data [0x05, 0x02], hid_read_result.data []] = none :=
  get_state_poll_never_returns { SpaceMouseDevice.init with device := some 0 } [0x05, 0x02]
    [hid_read_result.data []] 0 rfl rfl rfl rfl (by decide)

theorem close_state_mutex (s : SpaceMouseDevice) : (close s).state_mutex = s.state_mutex := by
  unfold close reader_exit
  simp only []
  split_ifs <;> rfl

theorem close_device (s : SpaceMouseDevice) : (close s).device = none := by
  unfold close reader_exit
  cases hd : s.device <;> cases hj : s.reader_joinable <;> simp [hd, hj]

/-- C9, as stated, fails: reopening a session that recorded a read error succeeds and
resets the counters, but `last_read_result` is still -1 and `last_error` still holds the
old message. -/
theorem reopen_keeps_last_error :
    (open_first ascii_to_lower open_always [multi_axis_node] used_session).map
        (fun r => (r.1, r.2.error_count, r.2.last_read_result, r.2.last_error)) =
      some (true, 0, -1, "device disconnected") := by
  decide

/-- C9 (amended): `open_first`, called with the mutex free, returns; when it returns true,
translation and rotation are zero, the button list is empty, the last raw report is empty
and its id is 0, the seen-reports map is empty, and readCount, errorCount, loopCount and
lastTickMs are 0, whatever the previous session left; `last_read_result` and `last_error`
are not part of the reset and keep the values of the previous session. -/
theorem open_first_success_resets (to_lower : String → String)
    (hid_open_path : String → Option hid_device) (info : List hid_device_info)
    (s : SpaceMouseDevice) (hm : s.state_mutex = false) :
    ∃ ok s', open_first to_lower hid_open_path info s = some (ok, s') ∧
      (ok = true →
        s'.translation = Vector3.zero ∧ s'.rotation = Vector3.zero ∧ s'.buttons = [] ∧
        s'.last_report = [] ∧ s'.last_report_id = 0 ∧ s'.seen_reports = [] ∧
        s'.read_count = 0 ∧ s'.error_count = 0 ∧ s'.loop_count = 0 ∧ s'.last_tick_ms = 0 ∧
        s'.last_read_result = s.last_read_result ∧ s'.last_error = s.last_error) := by
  have hcm := close_state_mutex s
  rw [hm] at hcm
  have hcd := close_device s
  have hclr : (close s).last_read_result = s.last_read_result := by
    unfold close reader_exit
    simp only []
    split_ifs <;> rfl
  have hcle : (close s).last_error = s.last_error := by
    unfold close reader_exit
    simp only []
    split_ifs <;> rfl
  unfold open_first
  cases hb : best_node to_lower info with
  | none =>
    simp [hcd]
  | some best =>
    cases ho : hid_open_path best.path with
    | none => simp [lock, unlock, hcm, ho]
    | some h => simp [lock, unlock, hcm, ho, hclr, hcle]

/-- The amended C9 on the session of the counterexample: the reopen succeeds and leaves
the State Store at zero apart from the two diagnostics it keeps. -/
theorem open_first_success_resets_witness :
    ∃ s', open_first ascii_to_lower open_always [multi_axis_node] used_session =
        some (true, s') ∧
      s'.translation = Vector3.zero ∧ s'.rotation = Vector3.zero ∧ s'.buttons = [] ∧
      s'.last_report = [] ∧ s'.last_report_id = 0 ∧ s'.seen_reports = [] ∧
      s'.read_count = 0 ∧ s'.error_count = 0 ∧ s'.loop_count = 0 ∧ s'.last_tick_ms = 0 ∧
      s'.last_read_result = -1 ∧ s'.last_error = "device disconnected" := by
  obtain ⟨ok, s', h, hreset⟩ :=
    open_first_success_resets ascii_to_lower open_always [multi_axis_node] used_session rfl
  have hok : (open_first ascii_to_lower open_always [multi_axis_node] used_session).map
      Prod.fst = some true := by decide
  rw [h] at hok
  have hok' : ok = true := by simpa using hok
  subst hok'
  exact ⟨s', h, hreset rfl⟩

theorem best_node_eq_none_iff (to_lower : String → String) (info : List hid_device_info) :
    best_node to_lower info = none ↔ ∀ d ∈ info, ¬ claimed_match to_lower d := by
  unfold best_node
  rcases select_best_spec to_lower info with ⟨hnone, hall⟩ | ⟨k, d, hk, hsel, hmd, _⟩
  · simp only [hnone, Option.none_bind, true_iff]
    intro d hd hc
    have := (matches_spacemouse_iff to_lower d).mpr hc
    rw [hall d hd] at this
    exact Bool.false_ne_true this
  · simp only [hsel, Option.some_bind, List.get?_eq_getElem?, hk]
    constructor
    · intro h
      exact absurd h (by simp)
    · intro h
      exact absurd ((matches_spacemouse_iff to_lower d).mp hmd) (h d (List.getElem?_mem hk))

/-- C10, as stated, fails: a failed `open_first` does not keep the recorded selection.
With no descriptor at all it is reset to (0, 0, ""); with a best descriptor whose open
fails it becomes that descriptor. -/
theorem failed_open_overwrites_selection :
    (used_session.usage_page, used_session.usage, used_session.device_path) =
      (1, 8, "hid#vid_256f&pid_c635&col02") ∧
    (open_first ascii_to_lower open_always [] used_session).map
        (fun r => (r.1, r.2.usage_page, r.2.usage, r.2.device_path)) =
      some (false, 0, 0, "") ∧
    (open_first ascii_to_lower open_never [mouse_node] used_session).map
        (fun r => (r.1, r.2.usage_page, r.2.usage, r.2.device_path)) =
      some (false, 1, 2, "hid#vid_256f&pid_c635&col01") := by
  decide

/-- C10 (amended): `open_first`, called with the mutex free, returns, and returns false
exactly when no descriptor matches or the open of the best-scored path fails. Whenever it
returns false, every State Store field (motion, buttons, last report and its id,
seen-reports map, counters, last read result, last error) has the value it had before the
call, running and connected are false and no handle is open and no reader is left to
join; the recorded selection is not kept: it is (0, 0, "") when no descriptor matches and
the usage page, usage and path of the best-scored descriptor when its open fails. -/
theorem open_first_failure_frame (to_lower : String → String)
    (hid_open_path : String → Option hid_device) (info : List hid_device_info)
    (s : SpaceMouseDevice) (hm : s.state_mutex = false) :
    ∃ ok s', open_first to_lower hid_open_path info s = some (ok, s') ∧
      (best_node to_lower info = none ↔ ∀ d ∈ info, ¬ claimed_match to_lower d) ∧
      (ok = false ↔ best_node to_lower info = none ∨
        ∃ b, best_node to_lower info = some b ∧ hid_open_path b.path = none) ∧
      (ok = false →
        (s'.translation = s.translation ∧ s'.rotation = s.rotation ∧ s'.buttons = s.buttons ∧
          s'.last_report = s.last_report ∧ s'.last_report_id = s.last_report_id ∧
          s'.seen_reports = s.seen_reports ∧ s'.read_count = s.read_count ∧
          s'.error_count = s.error_count ∧ s'.loop_count = s.loop_count ∧
          s'.last_tick_ms = s.last_tick_ms ∧ s'.last_read_result = s.last_read_result ∧
          s'.last_error = s.last_error) ∧
        (s'.running = false ∧ s'.connected = false ∧ s'.device = none ∧
          s'.reader_joinable = false) ∧
        (best_node to_lower info = none →
          s'.usage_page = 0 ∧ s'.usage = 0 ∧ s'.device_path = "") ∧
        (∀ b, best_node to_lower info = some b →
          s'.usage_page = b.usage_page ∧ s'.usage = b.usage ∧ s'.device_path = b.path)) := by
  have hiff := best_node_eq_none_iff to_lower info
  obtain ⟨device, reader_joinable, running, enabled, connected, raw_logging, last_report_id,
    usage_page, usage, device_path, last_read_result, last_error, read_count, error_count,
    loop_count, last_tick_ms, thread_alive, state_mutex, translation, rotation, buttons,
    last_report, seen_reports⟩ := s
  simp only at hm
  subst hm
  unfold open_first
  cases hb : best_node to_lower info with
  | none =>
    rw [hb] at hiff
    cases device <;> cases reader_joinable <;>
      simp [close, reader_exit, hiff.mp rfl] <;> exact hiff.mp rfl
  | some best =>
    rw [hb] at hiff
    have hnot : ¬ ∀ d ∈ info, ¬ claimed_match to_lower d := fun h => by
      have := hiff.mpr h
      simp at this
    cases ho : hid_open_path best.path with
    | none =>
      cases device <;> cases reader_joinable <;>
        simp [close, reader_exit, lock, unlock, ho, hnot]
    | some h =>
      cases device <;> cases reader_joinable <;>
        simp [close, reader_exit, lock, unlock, ho, hnot]

/-- The amended C10 on the used session with an empty enumeration: the call returns
false, the State Store is kept, nothing runs, and the selection is reset. -/
theorem open_first_failure_frame_witness :
    ∃ s', open_first ascii_to_lower open_always [] used_session = some (false, s') ∧
      s'.translation = ⟨3, 0, -2⟩ ∧ s'.buttons = [1] ∧ s'.read_count = 4 ∧
      s'.seen_reports = [(1, 3), (3, 1)] ∧ s'.running = false ∧ s'.connected = false ∧
      s'.device = none ∧ s'.usage_page = 0 ∧ s'.usage = 0 ∧ s'.device_path = "" := by
  obtain ⟨ok, s', h, _, hok, hframe⟩ :=
    open_first_failure_frame ascii_to_lower open_always [] used_session rfl
  have hb : best_node ascii_to_lower [] = none := rfl
  have hfalse : ok = false := hok.mpr (Or.inl hb)
  subst hfalse
  obtain ⟨hstore, hrun, hsel, _⟩ := hframe rfl
  exact ⟨s', h, hstore.1, hstore.2.2.1, hstore.2.2.2.2.2.2.1, hstore.2.2.2.2.2.1, hrun.1,
    hrun.2.1, hrun.2.2.1, hsel hb⟩

/-! ## Theorems: background loop -/

/-- A pass with acquisition disabled: only the two tick fields are written. -/
theorem reader_iteration_disabled (s : SpaceMouseDevice) (now_ms : Nat) (read : hid_read_result)
    (hm : s.state_mutex = false) (hen : s.enabled = false) :
    reader_loop_iteration s now_ms read = some { s with
      loop_count := (s.loop_count + 1) % 2 ^ 64
      last_tick_ms := now_ms % 2 ^ 64 } := by
  obtain ⟨device, reader_joinable, running, enabled, connected, raw_logging, last_report_id,
    usage_page, usage, device_path, last_read_result, last_error, read_count, error_count,
    loop_count, last_tick_ms, thread_alive, state_mutex, translation, rotation, buttons,
    last_report, seen_reports⟩ := s
  simp only at hm
  subst hm
  simp only at hen
  subst hen
  simp [reader_loop_iteration, lock, unlock]

/-- A pass with no handle open: only the two tick fields are written. -/
theorem reader_iteration_no_device (s : SpaceMouseDevice) (now_ms : Nat)
    (read : hid_read_result) (hm : s.state_mutex = false) (hdev : s.device = none) :
    reader_loop_iteration s now_ms read = some { s with
      loop_count := (s.loop_count + 1) % 2 ^ 64
      last_tick_ms := now_ms % 2 ^ 64 } := by
  obtain ⟨device, reader_joinable, running, enabled, connected, raw_logging, last_report_id,
    usage_page, usage, device_path, last_read_result, last_error, read_count, error_count,
    loop_count, last_tick_ms, thread_alive, state_mutex, translation, rotation, buttons,
    last_report, seen_reports⟩ := s
  simp only at hm
  subst hm
  simp only at hdev
  subst hdev
  cases enabled <;> simp [reader_loop_iteration, lock, unlock]

/-- A pass whose read times out (result 0). -/
theorem reader_iteration_timeout (s : SpaceMouseDevice) (now_ms : Nat) (h : hid_device)
    (hm : s.state_mutex = false) (hen : s.enabled = true) (hdev : s.device = some h) :
    reader_loop_iteration s now_ms (hid_read_result.data []) = some { s with
      loop_count := (s.loop_count + 1) % 2 ^ 64
      last_tick_ms := now_ms % 2 ^ 64
      last_read_result := 0
      read_count := (s.read_count + 1) % 2 ^ 64 } := by
  obtain ⟨device, reader_joinable, running, enabled, connected, raw_logging, last_report_id,
    usage_page, usage, device_path, last_read_result, last_error, read_count, error_count,
    loop_count, last_tick_ms, thread_alive, state_mutex, translation, rotation, buttons,
    last_report, seen_reports⟩ := s
  simp only at hm
  subst hm
  simp only at hen hdev
  subst hen hdev
  simp [reader_loop_iteration, lock, unlock, hid_read_result.res]

/-- A pass whose read fails (result -1). -/
theorem reader_iteration_error (s : SpaceMouseDevice) (now_ms : Nat) (h : hid_device)
    (err : Option String)
    (hm : s.state_mutex = false) (hen : s.enabled = true) (hdev : s.device = some h) :
    reader_loop_iteration s now_ms (hid_read_result.error err) = some { s with
      loop_count := (s.loop_count + 1) % 2 ^ 64
      last_tick_ms := now_ms % 2 ^ 64
      last_read_result := -1
      error_count := (s.error_count + 1) % 2 ^ 64
      last_error := err.getD "Unknown HID error"
      connected := false } := by
  obtain ⟨device, reader_joinable, running, enabled, connected, raw_logging, last_report_id,
    usage_page, usage, device_path, last_read_result, last_error, read_count, error_count,
    loop_count, last_tick_ms, thread_alive, state_mutex, translation, rotation, buttons,
    last_report, seen_reports⟩ := s
  simp only at hm
  subst hm
  simp only at hen hdev
  subst hen hdev
  cases err <;> simp [reader_loop_iteration, lock, unlock, hid_read_result.res]

/-- A pass whose read delivers a report: the accounting, then `handle_report`. -/
theorem reader_iteration_data (s : SpaceMouseDevice) (now_ms : Nat) (h : hid_device)
    (report : List uint8_t) (hne : report ≠ [])
    (hm : s.state_mutex = false) (hen : s.enabled = true) (hdev : s.device = some h) :
    reader_loop_iteration s now_ms (hid_read_result.data report) = handle_report { s with
      loop_count := (s.loop_count + 1) % 2 ^ 64
      last_tick_ms := now_ms % 2 ^ 64
      last_read_result := report.length
      read_count := (s.read_count + 1) % 2 ^ 64 } report := by
  obtain ⟨device, reader_joinable, running, enabled, connected, raw_logging, last_report_id,
    usage_page, usage, device_path, last_read_result, last_error, read_count, error_count,
    loop_count, last_tick_ms, thread_alive, state_mutex, translation, rotation, buttons,
    last_report, seen_reports⟩ := s
  simp only at hm
  subst hm
  simp only at hen hdev
  subst hen hdev
  have hpos : (0 : Int) < (report.length : Int) := by
    have : 0 < report.length := List.length_pos.mpr hne
    exact_mod_cast this
  have hnn : ¬ ((report.length : Int) < 0) := by omega
  have hge : (0 : Int) ≤ (report.length : Int) := by omega
  simp [reader_loop_iteration, lock, unlock, hid_read_result.res, hid_read_result.bytes, hpos,
    hnn, hge]

/-- C11 (the code departs from the claim): a pass of the background loop that issues a
read returns, with `last_read_result` the result of the read and `error_count` one more
exactly when the result is negative; but `read_count` is one more whenever the result is
not negative, so also on a read that times out with the result 0. -/
theorem reader_iteration_read_accounting (s : SpaceMouseDevice) (now_ms : Nat)
    (read : hid_read_result) (h : hid_device)
    (hm : s.state_mutex = false) (hen : s.enabled = true) (hdev : s.device = some h) :
    ∃ s', reader_loop_iteration s now_ms read = some s' ∧
      s'.last_read_result = read.res ∧
      s'.read_count = (if read.res ≥ 0 then (s.read_count + 1) % 2 ^ 64 else s.read_count) ∧
      s'.error_count = (if read.res < 0 then (s.error_count + 1) % 2 ^ 64 else s.error_count) := by
  cases read with
  | error err =>
    exact ⟨_, reader_iteration_error s now_ms h err hm hen hdev, rfl, rfl, rfl⟩
  | data report =>
    cases report with
    | nil =>
      exact ⟨_, reader_iteration_timeout s now_ms h hm hen hdev, rfl, rfl, rfl⟩
    | cons a l =>
      have hne : a :: l ≠ [] := List.cons_ne_nil a l
      obtain ⟨t, r, b, key⟩ := handle_report_recorded { s with
        loop_count := (s.loop_count + 1) % 2 ^ 64
        last_tick_ms := now_ms % 2 ^ 64
        last_read_result := ((a :: l).length : Int)
        read_count := (s.read_count + 1) % 2 ^ 64 } (a :: l) hm hne
      rw [← reader_iteration_data s now_ms h (a :: l) hne hm hen hdev] at key
      refine ⟨_, key, rfl, ?_, ?_⟩
      · have hge : (hid_read_result.data (a :: l)).res ≥ 0 := by
          simp only [hid_read_result.res]
          omega
        rw [if_pos hge]
        rfl
      · have hnl : ¬ (hid_read_result.data (a :: l)).res < 0 := by
          simp only [hid_read_result.res]
          omega
        rw [if_neg hnl]
        rfl

/-- C11 at the failing input: a pass on an open, enabled session whose read times out
leaves `read_count` at 1, not 0. -/
theorem reader_iteration_read_accounting_witness :
    ∃ s', reader_loop_iteration { SpaceMouseDevice.init with device := some 0 } 7
        (hid_read_result.data []) = some s' ∧
      s'.last_read_result = 0 ∧ s'.read_count = 1 ∧ s'.error_count = 0 := by
  obtain ⟨s', h, hres, hrc, hec⟩ := reader_iteration_read_accounting
    { SpaceMouseDevice.init with device := some 0 } 7 (hid_read_result.data []) 0 rfl rfl rfl
  exact ⟨s', h, hres, hrc, hec⟩

/-! ## Theorems: numeric decoding and hexadecimal text -/

theorem le_int16_bounds (b0 b1 : uint8_t) :
    -32768 ≤ le_int16 b0 b1 ∧ le_int16 b0 b1 ≤ 32767 ∧
    le_int16 b0 b1 % 256 = (b0.val : Int) ∧ le_int16 b0 b1 / 256 % 256 = (b1.val : Int) := by
  have h0 := b0.isLt
  have h1 := b1.isLt
  unfold le_int16
  split_ifs with h
  · push_cast
    omega
  · push_cast
    omega

theorem handle_translation_free (s : SpaceMouseDevice) (p_data : List uint8_t)
    (hm : s.state_mutex = false) :
    handle_translation s p_data = some { s with translation := triplet_at p_data 0 } := by
  obtain ⟨device, reader_joinable, running, enabled, connected, raw_logging, last_report_id,
    usage_page, usage, device_path, last_read_result, last_error, read_count, error_count,
    loop_count, last_tick_ms, thread_alive, state_mutex, translation, rotation, buttons,
    last_report, seen_reports⟩ := s
  simp only at hm
  subst hm
  have h := read_triplet_eq p_data 0
  simp only [Nat.zero_add] at h
  simp only [handle_translation, lock, unlock, h, Bool.false_eq_true, if_false,
    Option.pure_def, Option.bind_eq_bind, Option.some_bind]

theorem handle_rotation_free (s : SpaceMouseDevice) (p_data : List uint8_t)
    (hm : s.state_mutex = false) :
    handle_rotation s p_data = some { s with rotation := triplet_at p_data 0 } := by
  obtain ⟨device, reader_joinable, running, enabled, connected, raw_logging, last_report_id,
    usage_page, usage, device_path, last_read_result, last_error, read_count, error_count,
    loop_count, last_tick_ms, thread_alive, state_mutex, translation, rotation, buttons,
    last_report, seen_reports⟩ := s
  simp only at hm
  subst hm
  have h := read_triplet_eq p_data 0
  simp only [Nat.zero_add] at h
  simp only [handle_rotation, lock, unlock, h, Bool.false_eq_true, if_false,
    Option.pure_def, Option.bind_eq_bind, Option.some_bind]

/-- C12: for all bytes b0 and b1, `read_le_i16` returns the two's-complement signed 16-bit
value of b0 + 256*b1 (that number below 32768, that number minus 65536 otherwise), which
lies in [-32768, 32767] and whose low and high bytes are b0 and b1 again; and
`handle_translation` and `handle_rotation` store exactly these values, unscaled. -/
theorem read_le_i16_twos_complement (b0 b1 : uint8_t) (rest : List uint8_t)
    (s : SpaceMouseDevice) (hm : s.state_mutex = false) :
    read_le_i16 (b0 :: b1 :: rest) =
      (if b0.val + 256 * b1.val < 32768 then ((b0.val + 256 * b1.val : Nat) : Int)
        else ((b0.val + 256 * b1.val : Nat) : Int) - 65536) ∧
    (-32768 ≤ read_le_i16 (b0 :: b1 :: rest) ∧ read_le_i16 (b0 :: b1 :: rest) ≤ 32767) ∧
    (read_le_i16 (b0 :: b1 :: rest) % 256 = (b0.val : Int) ∧
      read_le_i16 (b0 :: b1 :: rest) / 256 % 256 = (b1.val : Int)) ∧
    (handle_translation s (b0 :: b1 :: rest)).map (fun s' => s'.translation.x) =
      some (read_le_i16 (b0 :: b1 :: rest)) ∧
    (handle_rotation s (b0 :: b1 :: rest)).map (fun s' => s'.rotation.x) =
      some (read_le_i16 (b0 :: b1 :: rest)) ∧
    (handle_translation s (b0 :: b1 :: rest)).map (fun s' => s'.translation) =
      some (triplet_at (b0 :: b1 :: rest) 0) ∧
    (handle_rotation s (b0 :: b1 :: rest)).map (fun s' => s'.rotation) =
      some (triplet_at (b0 :: b1 :: rest) 0) := by
  have hr : read_le_i16 (b0 :: b1 :: rest) = le_int16 b0 b1 := by
    have := read_le_i16_drop (b0 :: b1 :: rest) 0
    simpa using this
  have hb := le_int16_bounds b0 b1
  rw [hr, handle_translation_free s _ hm, handle_rotation_free s _ hm]
  refine ⟨rfl, ⟨hb.1, hb.2.1⟩, ⟨hb.2.2.1, hb.2.2.2⟩, ?_, ?_, rfl, rfl⟩
  · simp [triplet_at]
  · simp [triplet_at]

/-- C12 at the bytes 0xFE, 0xFF: the value is -2. -/
theorem read_le_i16_twos_complement_witness :
    read_le_i16 [0xFE, 0xFF] = -2 ∧
    (handle_translation SpaceMouseDevice.init [0xFE, 0xFF]).map (fun s' => s'.translation.x) =
      some (-2) := by
  obtain ⟨hv, _, _, ht, _⟩ :=
    read_le_i16_twos_complement 0xFE 0xFF [] SpaceMouseDevice.init rfl
  have h2 : read_le_i16 [0xFE, 0xFF] = -2 := by
    rw [hv]
    decide
  rw [ht]
  exact ⟨h2, congrArg some h2⟩

set_option maxRecDepth 1000000 in
/-- The bytes `hex_byte` renders as their two hexadecimal digits: all but those whose text
starts with a letter and has a decimal digit after it (60 bytes, three characters) and
the six bytes 0x0A..0x0F (one character). -/
theorem hex_byte_two_digits_iff : ∀ b : uint8_t, hex_byte b = two_hex_digits b ↔
    ¬ ((10 ≤ b.val / 16 ∧ b.val % 16 < 10) ∨ (b.val / 16 = 0 ∧ 10 ≤ b.val % 16)) := by
  decide

/-- C13 (the code departs from the claim): `get_last_report_hex` returns the empty text
when no report is recorded and "01 ab 00" for the report 01 AB 00, but for the one-byte
report A5 it returns "a05", three characters where the claim has the two digits "a5", and
for 0A it returns "a", one character where the claim has "0a"; neither text reads back as
hexadecimal bytes. -/
theorem last_report_hex_not_two_digits :
    get_last_report_hex SpaceMouseDevice.init = some ("", SpaceMouseDevice.init) ∧
    (get_last_report_hex { SpaceMouseDevice.init with last_report := [0x01, 0xAB, 0x00] }).map
        Prod.fst = some "01 ab 00" ∧
    (get_last_report_hex { SpaceMouseDevice.init with last_report := [0xA5] }).map Prod.fst =
        some "a05" ∧
    claimed_hex [0xA5] = "a5".data ∧ "a05".length = 3 ∧ parse_hex "a05".data = none ∧
    (get_last_report_hex { SpaceMouseDevice.init with last_report := [0x0A] }).map Prod.fst =
        some "a" ∧
    claimed_hex [0x0A] = "0a".data ∧ "a".length = 1 ∧ parse_hex "a".data = none := by
  decide

/-! ## Theorems: closing -/

/-- C16: `close`, from every state, leaves the running flag cleared, no handle open and
connected false, and a second `close` changes nothing. -/
theorem close_idempotent (s : SpaceMouseDevice) :
    (close s).running = false ∧ (close s).device = none ∧ (close s).connected = false ∧
    close (close s) = close s := by
  obtain ⟨device, reader_joinable, running, enabled, connected, raw_logging, last_report_id,
    usage_page, usage, device_path, last_read_result, last_error, read_count, error_count,
    loop_count, last_tick_ms, thread_alive, state_mutex, translation, rotation, buttons,
    last_report, seen_reports⟩ := s
  cases device <;> cases reader_joinable <;> simp [close, reader_exit]

/-! ## Theorems: disabled acquisition, zero blocks -/

theorem get_state_no_poll (s : SpaceMouseDevice) (reads : List hid_read_result)
    (hm : s.state_mutex = false)
    (hc : (!s.thread_alive && s.device.isSome && s.enabled) = false) :
    ∃ view, get_state s reads = some (view, s) ∧ is_snapshot_of view s := by
  obtain ⟨device, reader_joinable, running, enabled, connected, raw_logging, last_report_id,
    usage_page, usage, device_path, last_read_result, last_error, read_count, error_count,
    loop_count, last_tick_ms, thread_alive, state_mutex, translation, rotation, buttons,
    last_report, seen_reports⟩ := s
  simp only at hm hc
  subst hm
  unfold get_state
  simp only [hc, Bool.false_eq_true, if_false, lock, unlock, Option.pure_def,
    Option.bind_eq_bind, Option.some_bind]
  refine ⟨_, rfl, rfl, rfl, rfl, rfl, rfl, rfl, rfl, rfl, rfl, rfl, rfl, rfl, rfl, rfl, rfl, ?_⟩
  intro key n
  simp only [List.mem_map, Prod.mk.injEq, Prod.exists]
  constructor
  · rintro ⟨k, m, hmem, hkey, hn⟩
    subst hn
    exact ⟨k, hmem, hkey.symm⟩
  · rintro ⟨k, hmem, hkey⟩
    exact ⟨k, n, hmem, hkey.symm, rfl⟩

/-- C19: while acquisition is disabled, a pass of the background loop returns the session
with only `loop_count` and `last_tick_ms` written, whatever a read would have returned,
and `get_state` returns with the session unchanged, whatever reads are pending; so
translation, rotation, buttons, last report, seen-reports, read and error counts, last
read result, last error and connected keep their values. -/
theorem disabled_acquisition_frame (s : SpaceMouseDevice) (hm : s.state_mutex = false)
    (hen : s.enabled = false) :
    (∀ (now_ms : Nat) (read : hid_read_result),
      ∃ s', reader_loop_iteration s now_ms read = some s' ∧
        s' = { s with loop_count := (s.loop_count + 1) % 2 ^ 64, last_tick_ms := now_ms % 2 ^ 64 } ∧
        s'.translation = s.translation ∧ s'.rotation = s.rotation ∧ s'.buttons = s.buttons ∧
        s'.last_report = s.last_report ∧ s'.last_report_id = s.last_report_id ∧
        s'.seen_reports = s.seen_reports ∧ s'.read_count = s.read_count ∧
        s'.error_count = s.error_count ∧ s'.last_read_result = s.last_read_result ∧
        s'.last_error = s.last_error ∧ s'.connected = s.connected) ∧
    (∀ reads : List hid_read_result,
      get_state s reads = get_state s [] ∧ ∃ view, get_state s reads = some (view, s)) := by
  constructor
  · intro now_ms read
    exact ⟨_, reader_iteration_disabled s now_ms read hm hen, rfl, rfl, rfl, rfl, rfl, rfl, rfl,
      rfl, rfl, rfl, rfl, rfl⟩
  · intro reads
    have hc : (!s.thread_alive && s.device.isSome && s.enabled) = false := by simp [hen]
    obtain ⟨v, hv, _⟩ := get_state_no_poll s reads hm hc
    obtain ⟨v0, hv0, _⟩ := get_state_no_poll s [] hm hc
    refine ⟨?_, v, hv⟩
    unfold get_state
    simp only [hc, Bool.false_eq_true, if_false]

/-- C19 on a disabled session with a handle open, button 2 held and a report pending:
the pass writes the two tick fields only, `get_state` returns the session unchanged. -/
theorem disabled_acquisition_frame_witness :
    reader_loop_iteration
        { SpaceMouseDevice.init with device := some 0, enabled := false, buttons := [2] } 40
        (hid_read_result.data [3, 1]) =
      some { SpaceMouseDevice.init with
        device := some 0, enabled := false, buttons := [2], loop_count := 1, last_tick_ms := 40 } ∧
    ∃ view, get_state
        { SpaceMouseDevice.init with device := some 0, enabled := false, buttons := [2] }
        [hid_read_result.data [3, 1]] =
      some (view,
        { SpaceMouseDevice.init with device := some 0, enabled := false, buttons := [2] }) := by
  have key := disabled_acquisition_frame
    { SpaceMouseDevice.init with device := some 0, enabled := false, buttons := [2] } rfl rfl
  obtain ⟨s', h, heq, _⟩ := key.1 40 (hid_read_result.data [3, 1])
  refine ⟨?_, (key.2 [hid_read_result.data [3, 1]]).2⟩
  rw [h, heq]
  rfl

theorem le_int16_eq_zero (b0 b1 : uint8_t) : le_int16 b0 b1 = 0 ↔ b0 = 0 ∧ b1 = 0 := by
  have h0 := b0.isLt
  have h1 := b1.isLt
  unfold le_int16
  constructor
  · intro h
    split_ifs at h with hlt
    · have : b0.val + 256 * b1.val = 0 := by exact_mod_cast h
      exact ⟨Fin.ext (by simp; omega), Fin.ext (by simp; omega)⟩
    · have : ((b0.val + 256 * b1.val : Nat) : Int) = 65536 := by omega
      have : b0.val + 256 * b1.val = 65536 := by exact_mod_cast this
      omega
  · rintro ⟨rfl, rfl⟩
    simp

theorem triplet_at_eq_zero (p_data : List uint8_t) (k : Nat) :
    triplet_at p_data k = Vector3.zero ↔ ∀ j, j < 6 → p_data.getD (k + j) 0 = 0 := by
  simp only [triplet_at, Vector3.zero, Vector3.mk.injEq, le_int16_eq_zero]
  constructor
  · rintro ⟨⟨a0, a1⟩, ⟨a2, a3⟩, ⟨a4, a5⟩⟩ j hj
    interval_cases j
    · simpa using a0
    · exact a1
    · exact a2
    · exact a3
    · exact a4
    · exact a5
  · intro h
    exact ⟨⟨by simpa using h 0 (by omega), h 1 (by omega)⟩, ⟨h 2 (by omega), h 3 (by omega)⟩,
      ⟨h 4 (by omega), h 5 (by omega)⟩⟩

/-- Combined branch, on the triplets of the claim. -/
theorem handle_report_combined_triplets (s : SpaceMouseDevice) (p_data : List uint8_t)
    (hm : s.state_mutex = false) (hid : p_data[0]? = some 1) (hlen : 13 ≤ p_data.length) :
    handle_report s p_data = some { recorded s p_data with
      translation :=
        if triplet_at p_data 1 = Vector3.zero ∧ triplet_at p_data 7 ≠ Vector3.zero
          then triplet_at p_data 7 else triplet_at p_data 1
      rotation :=
        if triplet_at p_data 7 = Vector3.zero ∧ triplet_at p_data 1 ≠ Vector3.zero
          then triplet_at p_data 1 else triplet_at p_data 7 } := by
  have hA := read_triplet_eq p_data 1
  have hB := read_triplet_eq p_data 7
  simp only [Nat.reduceAdd] at hA hB
  have key := handle_report_combined s p_data hm hid hlen
  rw [hA, hB] at key
  have hge : ∀ v : Vector3, 1 ≤ v.length_squared ↔ v ≠ Vector3.zero := by
    intro v
    have := length_squared_lt_one v
    constructor
    · intro h hz
      have := this.mpr hz
      omega
    · intro h
      by_contra hlt
      exact h (this.mp (by omega))
  simp only [length_squared_lt_one, hge] at key
  exact key

/-- C20: after `handle_report` on a report with id 0x01 and at least 13 bytes, translation
is zero exactly when rotation is zero, exactly when bytes 1-12 are all zero; a report with
exactly one non-zero block yields translation equal to rotation; and no such report
yields a translation and a rotation of which one is zero and the other not. -/
theorem combined_report_zero_iff (s : SpaceMouseDevice) (p_data : List uint8_t)
    (hm : s.state_mutex = false) (hid : p_data[0]? = some 1) (hlen : 13 ≤ p_data.length) :
    ∃ s', handle_report s p_data = some s' ∧
      (s'.translation = Vector3.zero ↔ s'.rotation = Vector3.zero) ∧
      (s'.rotation = Vector3.zero ↔ ∀ i, 1 ≤ i → i ≤ 12 → p_data.getD i 0 = 0) ∧
      ((triplet_at p_data 1 = Vector3.zero ∧ triplet_at p_data 7 ≠ Vector3.zero) ∨
          (triplet_at p_data 1 ≠ Vector3.zero ∧ triplet_at p_data 7 = Vector3.zero) →
        s'.translation = s'.rotation) ∧
      ¬ (s'.translation ≠ Vector3.zero ∧ s'.rotation = Vector3.zero) ∧
      ¬ (s'.translation = Vector3.zero ∧ s'.rotation ≠ Vector3.zero) := by
  refine ⟨_, handle_report_combined_triplets s p_data hm hid hlen, ?_⟩
  have hbytes : (triplet_at p_data 1 = Vector3.zero ∧ triplet_at p_data 7 = Vector3.zero) ↔
      ∀ i, 1 ≤ i → i ≤ 12 → p_data.getD i 0 = 0 := by
    rw [triplet_at_eq_zero, triplet_at_eq_zero]
    constructor
    · rintro ⟨hA, hB⟩ i h1 h12
      by_cases h : i < 7
      · have := hA (i - 1) (by omega)
        rwa [show 1 + (i - 1) = i by omega] at this
      · have := hB (i - 7) (by omega)
        rwa [show 7 + (i - 7) = i by omega] at this
    · intro h
      exact ⟨fun j hj => h (1 + j) (by omega) (by omega),
        fun j hj => h (7 + j) (by omega) (by omega)⟩
  show (_ ↔ _) ∧ (_ ↔ _) ∧ _
  simp only []
  rw [← hbytes]
  by_cases hA : triplet_at p_data 1 = Vector3.zero <;>
    by_cases hB : triplet_at p_data 7 = Vector3.zero <;>
    simp [hA, hB]

/-- C20 at a pure-translation report (first block (1, 0, 0), second block zero): both
translation and rotation come out as (1, 0, 0). -/
theorem combined_report_zero_iff_witness :
    ∃ s', handle_report SpaceMouseDevice.init [1, 1, 0, 0, 0, 0, 0, 0, 0, 0, 0, 0, 0] = some s' ∧
      (s'.translation = Vector3.zero ↔ s'.rotation = Vector3.zero) ∧
      s'.translation = s'.rotation := by
  obtain ⟨s', h, hiff, _, heq, _⟩ := combined_report_zero_iff SpaceMouseDevice.init
    [1, 1, 0, 0, 0, 0, 0, 0, 0, 0, 0, 0, 0] rfl (by decide) (by decide)
  exact ⟨s', h, hiff, heq (Or.inr (by decide))⟩

/-! ## Theorems: what each operation leaves alone -/

/-- The poll loop of `get_state`, the mutex being free: it returns only when its first
read brings no report, and then writes the read diagnostics only. -/
theorem poll_loop_free (s : SpaceMouseDevice) (reads : List hid_read_result)
    (hm : s.state_mutex = false) (s' : SpaceMouseDevice) (h : poll_loop s reads = some s') :
    ∃ lrr le, (s' = { s with last_read_result := lrr } ∨
      s' = { s with
        last_read_result := lrr
        error_count := (s.error_count + 1) % 2 ^ 64
        last_error := le }) := by
  obtain ⟨device, reader_joinable, running, enabled, connected, raw_logging, last_report_id,
    usage_page, usage, device_path, last_read_result, last_error, read_count, error_count,
    loop_count, last_tick_ms, thread_alive, state_mutex, translation, rotation, buttons,
    last_report, seen_reports⟩ := s
  simp only at hm
  subst hm
  cases reads with
  | nil =>
    simp [poll_loop, lock, unlock] at h
    exact ⟨0, "", Or.inl h.symm⟩
  | cons r pending =>
    cases r with
    | error err =>
      cases err with
      | none =>
        simp [poll_loop, lock, unlock, hid_read_result.res] at h
        exact ⟨-1, "Unknown HID error (poll)", Or.inr h.symm⟩
      | some e =>
        simp [poll_loop, lock, unlock, hid_read_result.res] at h
        exact ⟨-1, e, Or.inr h.symm⟩
    | data report =>
      cases report with
      | nil =>
        simp [poll_loop, lock, unlock, hid_read_result.res] at h
        exact ⟨0, "", Or.inl h.symm⟩
      | cons a l =>
        exfalso
        have hpos : (0 : Int) < ((l.length : Int) + 1) := by omega
        have hlocked := handle_report_locked
          { device := device, reader_joinable := reader_joinable, running := running,
            enabled := enabled, connected := connected, raw_logging := raw_logging,
            last_report_id := last_report_id, usage_page := usage_page, usage := usage,
            device_path := device_path, last_read_result := (l.length : Int) + 1,
            last_error := last_error, read_count := read_count, error_count := error_count,
            loop_count := loop_count, last_tick_ms := last_tick_ms,
            thread_alive := thread_alive, state_mutex := true, translation := translation,
            rotation := rotation, buttons := buttons, last_report := last_report,
            seen_reports := seen_reports } (a :: l) rfl (List.cons_ne_nil a l)
        unfold poll_loop at h
        simp [lock, hid_read_result.res, hid_read_result.bytes, hpos, hlocked] at h

/-- What `get_state` leaves of the session when it returns: all but the read diagnostics. -/
theorem get_state_frame (s : SpaceMouseDevice) (reads : List hid_read_result)
    (hm : s.state_mutex = false) (view : StateView) (s' : SpaceMouseDevice)
    (h : get_state s reads = some (view, s')) :
    ∃ lrr le, (s' = { s with last_read_result := lrr } ∨
      s' = { s with
        last_read_result := lrr
        error_count := (s.error_count + 1) % 2 ^ 64
        last_error := le }) := by
  by_cases hc : (!s.thread_alive && s.device.isSome && s.enabled) = true
  · unfold get_state at h
    rw [if_pos hc] at h
    cases hp : poll_loop s reads with
    | none => simp [hp] at h
    | some s1 =>
      obtain ⟨lrr, le, hs1⟩ := poll_loop_free s reads hm s1 hp
      have hm1 : s1.state_mutex = false := by
        rcases hs1 with rfl | rfl <;> exact hm
      simp only [hp, Option.pure_def, Option.bind_eq_bind, Option.some_bind, lock, hm1,
        Bool.false_eq_true, if_false, Option.some.injEq, Prod.mk.injEq] at h
      refine ⟨lrr, le, ?_⟩
      have hu : unlock { s1 with state_mutex := true } = s1 := by
        obtain ⟨device, reader_joinable, running, enabled, connected, raw_logging,
          last_report_id, usage_page, usage, device_path, last_read_result, last_error,
          read_count, error_count, loop_count, last_tick_ms, thread_alive, state_mutex,
          translation, rotation, buttons, last_report, seen_reports⟩ := s1
        simp only at hm1
        subst hm1
        rfl
      rw [hu] at h
      rw [← h.2]
      exact hs1
  · have hc' : (!s.thread_alive && s.device.isSome && s.enabled) = false := by
      simpa using hc
    obtain ⟨v, hv, _⟩ := get_state_no_poll s reads hm hc'
    rw [hv] at h
    simp only [Option.some.injEq, Prod.mk.injEq] at h
    refine ⟨s.last_read_result, "", Or.inl ?_⟩
    rw [← h.2]

theorem seen_count_increment_le (m : List (uint8_t × Int)) (k j : uint8_t) :
    seen_count m j ≤ seen_count (seen_increment m k) j := by
  by_cases h : j = k
  · subst h
    rw [seen_count_increment_self]
    omega
  · rw [seen_count_increment_other m k j h]

/-- What `handle_report` leaves of the session, the mutex being free: it returns, and
writes nothing but the fields of the decoder. -/
theorem handle_report_frame (s : SpaceMouseDevice) (p_data : List uint8_t)
    (hm : s.state_mutex = false) :
    ∃ s', handle_report s p_data = some s' ∧
      s'.device = s.device ∧ s'.reader_joinable = s.reader_joinable ∧
      s'.running = s.running ∧ s'.thread_alive = s.thread_alive ∧ s'.enabled = s.enabled ∧
      s'.state_mutex = false ∧ s'.loop_count = s.loop_count ∧
      s'.read_count = s.read_count ∧ s'.error_count = s.error_count ∧
      s'.last_read_result = s.last_read_result ∧
      (∀ k, seen_count s.seen_reports k ≤ seen_count s'.seen_reports k) := by
  by_cases hne : p_data = []
  · subst hne
    refine ⟨s, by simp [handle_report], rfl, rfl, rfl, rfl, rfl, hm, rfl, rfl, rfl, rfl, ?_⟩
    intro k
    exact le_refl _
  · obtain ⟨t, r, b, key⟩ := handle_report_recorded s p_data hm hne
    refine ⟨_, key, rfl, rfl, rfl, rfl, rfl, rfl, rfl, rfl, rfl, rfl, ?_⟩
    intro k
    exact seen_count_increment_le s.seen_reports (p_data.getD 0 0) k

/-- What a pass of the background loop leaves of the session, the mutex being free: it
returns, adds one to `loop_count`, at most one to the read and error counts, and does
not touch the handle, the thread or the running flag. -/
theorem reader_iteration_frame (s : SpaceMouseDevice) (now_ms : Nat) (read : hid_read_result)
    (hm : s.state_mutex = false) :
    ∃ s', reader_loop_iteration s now_ms read = some s' ∧
      s'.device = s.device ∧ s'.reader_joinable = s.reader_joinable ∧
      s'.running = s.running ∧ s'.thread_alive = s.thread_alive ∧ s'.enabled = s.enabled ∧
      s'.state_mutex = false ∧ s'.loop_count = (s.loop_count + 1) % 2 ^ 64 ∧
      (s'.read_count = s.read_count ∨ s'.read_count = (s.read_count + 1) % 2 ^ 64) ∧
      (s'.error_count = s.error_count ∨ s'.error_count = (s.error_count + 1) % 2 ^ 64) ∧
      (∀ k, seen_count s.seen_reports k ≤ seen_count s'.seen_reports k) := by
  by_cases hen : s.enabled = true
  · cases hdev : s.device with
    | none =>
      exact ⟨_, reader_iteration_no_device s now_ms read hm hdev, hdev, rfl, rfl, rfl,
        rfl, hm, rfl, Or.inl rfl, Or.inl rfl, fun k => le_refl _⟩
    | some h =>
      cases read with
      | error err =>
        exact ⟨_, reader_iteration_error s now_ms h err hm hen hdev, hdev, rfl, rfl, rfl,
          rfl, hm, rfl, Or.inl rfl, Or.inr rfl, fun k => le_refl _⟩
      | data report =>
        cases report with
        | nil =>
          exact ⟨_, reader_iteration_timeout s now_ms h hm hen hdev, hdev, rfl, rfl, rfl,
            rfl, hm, rfl, Or.inr rfl, Or.inl rfl, fun k => le_refl _⟩
        | cons a l =>
          have hne : a :: l ≠ [] := List.cons_ne_nil a l
          obtain ⟨s', hs', f1, f2, f3, f4, f5, f6, f7, f8, f9, _, f11⟩ := handle_report_frame
            { s with
              loop_count := (s.loop_count + 1) % 2 ^ 64
              last_tick_ms := now_ms % 2 ^ 64
              last_read_result := ((a :: l).length : Int)
              read_count := (s.read_count + 1) % 2 ^ 64 } (a :: l) hm
          rw [← reader_iteration_data s now_ms h (a :: l) hne hm hen hdev] at hs'
          exact ⟨s', hs', f1.trans hdev, f2, f3, f4, f5, f6, f7, Or.inr f8, Or.inl f9, f11⟩
  · have hen' : s.enabled = false := by simpa using hen
    exact ⟨_, reader_iteration_disabled s now_ms read hm hen', rfl, rfl, rfl, rfl, rfl, hm,
      rfl, Or.inl rfl, Or.inl rfl, fun k => le_refl _⟩

/-- What `open_first` returns, the mutex being free. -/
theorem open_first_outcome (to_lower : String → String)
    (hid_open_path : String → Option hid_device) (info : List hid_device_info)
    (s : SpaceMouseDevice) (hm : s.state_mutex = false) :
    ∃ ok s', open_first to_lower hid_open_path info s = some (ok, s') ∧
      s'.state_mutex = false ∧
      (ok = true → s'.device.isSome = true ∧ s'.reader_joinable = true ∧
        s'.running = true ∧ s'.thread_alive = false) ∧
      (ok = false → s'.reader_joinable = false ∧ s'.connected = false ∧ s'.device = none ∧
        s'.running = false ∧
        s'.thread_alive = (if s.reader_joinable then false else s.thread_alive) ∧
        s'.read_count = s.read_count ∧ s'.error_count = s.error_count ∧
        s'.loop_count = s.loop_count ∧ s'.seen_reports = s.seen_reports) := by
  obtain ⟨device, reader_joinable, running, enabled, connected, raw_logging, last_report_id,
    usage_page, usage, device_path, last_read_result, last_error, read_count, error_count,
    loop_count, last_tick_ms, thread_alive, state_mutex, translation, rotation, buttons,
    last_report, seen_reports⟩ := s
  simp only at hm
  subst hm
  unfold open_first
  cases hb : best_node to_lower info with
  | none =>
    cases device <;> cases reader_joinable <;> simp [close, reader_exit]
  | some best =>
    cases ho : hid_open_path best.path with
    | none =>
      cases device <;> cases reader_joinable <;>
        simp [close, reader_exit, lock, unlock, ho]
    | some h =>
      cases device <;> cases reader_joinable <;>
        simp [close, reader_exit, lock, unlock, ho]

theorem close_invariant (s : SpaceMouseDevice) (hinv : session_invariant s) :
    session_invariant (close s) := by
  obtain ⟨hm, _, _, hta⟩ := hinv
  obtain ⟨device, reader_joinable, running, enabled, connected, raw_logging, last_report_id,
    usage_page, usage, device_path, last_read_result, last_error, read_count, error_count,
    loop_count, last_tick_ms, thread_alive, state_mutex, translation, rotation, buttons,
    last_report, seen_reports⟩ := s
  simp only at hm hta
  subst hm
  cases device <;> cases reader_joinable <;>
    simp_all [close, reader_exit, session_invariant]

/-- Every operation that takes place keeps the invariant. -/
theorem step_invariant (s s' : SpaceMouseDevice) (op : Op) (hinv : session_invariant s)
    (h : step s op = some s') : session_invariant s' := by
  have hm := hinv.1
  cases op with
  | open_first to_lower hid_open_path info =>
    obtain ⟨ok, s1, hs1, hm1, htrue, hfalse⟩ :=
      open_first_outcome to_lower hid_open_path info s hm
    simp only [step, hs1, Option.map_some', Option.some.injEq] at h
    subst h
    cases ok with
    | true =>
      obtain ⟨hd, hj, hr, hta⟩ := htrue rfl
      exact ⟨hm1, fun _ => ⟨hd, hr⟩, fun _ => hj, fun _ => hj⟩
    | false =>
      obtain ⟨hj, hc, hd, _, hta, _⟩ := hfalse rfl
      refine ⟨hm1, fun hj' => ?_, fun hc' => ?_, fun hta' => ?_⟩
      · rw [hj] at hj'
        exact absurd hj' (by simp)
      · rw [hc] at hc'
        exact absurd hc' (by simp)
      · rw [hta] at hta'
        by_cases hsj : s.reader_joinable = true
        · simp [hsj] at hta'
        · simp only [hsj, Bool.false_eq_true, if_false] at hta'
          exact absurd (hinv.2.2.2 hta') hsj
  | close =>
    simp only [step, Option.some.injEq] at h
    subst h
    exact close_invariant s hinv
  | get_state reads =>
    simp only [step, Option.map_eq_some', Prod.exists, exists_eq_right] at h
    obtain ⟨view, hv⟩ := h
    obtain ⟨lrr, le, hs'⟩ := get_state_frame s reads hm view s' hv
    rcases hs' with rfl | rfl <;> exact hinv
  | set_enabled p_enabled =>
    simp only [step, Option.some.injEq] at h
    subst h
    exact hinv
  | enable_raw_logging p_enabled =>
    simp only [step, Option.some.injEq] at h
    subst h
    exact hinv
  | reader_start =>
    simp only [step] at h
    split_ifs at h with hg
    simp only [Option.some.injEq] at h
    subst h
    simp only [Bool.and_eq_true, Bool.not_eq_true'] at hg
    exact ⟨hinv.1, hinv.2.1, hinv.2.2.1, fun _ => hg.1⟩
  | reader_iteration now_ms read =>
    simp only [step] at h
    split_ifs at h with hg
    simp only [Bool.and_eq_true] at hg
    obtain ⟨s1, hs1, fd, fj, fr, fta, _, fm, _⟩ := reader_iteration_frame s now_ms read hm
    rw [hs1, Option.some.injEq] at h
    subst h
    have hj := hinv.2.2.2 hg.1
    refine ⟨fm, fun _ => ?_, fun _ => ?_, fun _ => ?_⟩
    · rw [fd, fr]
      exact hinv.2.1 hj
    · rw [fj]
      exact hj
    · rw [fj]
      exact hj
  | reader_exit =>
    simp only [step] at h
    split_ifs at h with hg
    simp only [Option.some.injEq] at h
    subst h
    refine ⟨hinv.1, hinv.2.1, fun hc => ?_, fun hta => ?_⟩
    · simp [reader_exit] at hc
    · simp [reader_exit] at hta

/-- Every sequence of operations that takes place keeps the invariant. -/
theorem run_invariant (ops : List Op) (c c' : SpaceMouseDevice × Bool)
    (hinv : session_invariant c.1) (h : run ops c = some c') : session_invariant c'.1 := by
  induction ops generalizing c with
  | nil =>
    simp only [run, Option.some.injEq] at h
    subst h
    exact hinv
  | cons op ops ih =>
    simp only [run] at h
    cases hs : step c.1 op with
    | none => simp [hs] at h
    | some s1 =>
      simp only [hs, Option.some_bind] at h
      exact ih (s1, step_polled c.1 c.2 op) (step_invariant c.1 s1 op hinv hs) h

theorem init_invariant : session_invariant SpaceMouseDevice.init := by
  simp [session_invariant, SpaceMouseDevice.init]

/-! ## Theorems: reachable sessions, the running flag, the counters -/

/-- C14, as stated, fails: right after a successful `open_first` on a fresh session,
before the launched thread has run its first statement and with no poll ever made,
connected is true while thread-alive is false. -/
theorem connected_before_reader_starts :
    ∃ s', run [Op.open_first ascii_to_lower open_always [multi_axis_node]]
        (SpaceMouseDevice.init, false) = some (s', false) ∧
      s'.connected = true ∧ s'.device.isSome = true ∧ s'.thread_alive = false ∧
      ¬ claimed_liveness s' false := by
  refine ⟨_, rfl, by decide, by decide, by decide, ?_⟩
  intro h
  have := (h.1 (by decide)).2
  revert this
  decide

/-- C14 (amended): in every state reached from a freshly constructed session through
`open_first`, `close`, `get_state`, `set_enabled`, `enable_raw_logging`, the start of the
background loop, its passes and its exit, connected is true only if a handle is open and
a reader thread has been launched and not joined (it may not have set thread-alive yet),
and thread-alive is true only if such a thread exists, with a handle open and `running`
set. -/
theorem reachable_liveness (ops : List Op) (s : SpaceMouseDevice) (polled : Bool)
    (h : run ops (SpaceMouseDevice.init, false) = some (s, polled)) :
    (s.connected = true → s.device.isSome = true ∧ s.reader_joinable = true) ∧
    (s.thread_alive = true →
      s.reader_joinable = true ∧ s.device.isSome = true ∧ s.running = true) := by
  have hinv := run_invariant ops (SpaceMouseDevice.init, false) (s, polled) init_invariant h
  obtain ⟨_, hj, hc, hta⟩ := hinv
  exact ⟨fun hcon => ⟨(hj (hc hcon)).1, hc hcon⟩,
    fun halive => ⟨hta halive, (hj (hta halive)).1, (hj (hta halive)).2⟩⟩

/-- The amended C14 on an open, a start of the reader, a pass that reads a button report,
a read error and a close. -/
theorem reachable_liveness_witness :
    ∃ s polled, run [Op.open_first ascii_to_lower open_always [multi_axis_node],
        Op.reader_start, Op.reader_iteration 3 (hid_read_result.data [5, 2]),
        Op.reader_iteration 20 (hid_read_result.error none), Op.close]
        (SpaceMouseDevice.init, false) = some (s, polled) ∧
      (s.connected = true → s.device.isSome = true ∧ s.reader_joinable = true) ∧
      (s.thread_alive = true →
        s.reader_joinable = true ∧ s.device.isSome = true ∧ s.running = true) := by
  have hrun : (run [Op.open_first ascii_to_lower open_always [multi_axis_node],
      Op.reader_start, Op.reader_iteration 3 (hid_read_result.data [5, 2]),
      Op.reader_iteration 20 (hid_read_result.error none), Op.close]
      (SpaceMouseDevice.init, false)).isSome = true := by decide
  obtain ⟨c, hc⟩ := Option.isSome_iff_exists.mp hrun
  exact ⟨c.1, c.2, hc, reachable_liveness _ c.1 c.2 hc⟩

/-- C18: a pass of the background loop whose read returns a negative result returns with
connected false, the error recorded (result, count, message) and the running flag as it
was; and an operation that takes a session from `running` set to `running` cleared is
`close` or `open_first`, which begins with `close`. -/
theorem read_error_keeps_running (s : SpaceMouseDevice) (hm : s.state_mutex = false) :
    (∀ (h : hid_device) (now_ms : Nat) (err : Option String),
      s.enabled = true → s.device = some h →
      ∃ s', reader_loop_iteration s now_ms (hid_read_result.error err) = some s' ∧
        s'.connected = false ∧ s'.running = s.running ∧ s'.last_read_result = -1 ∧
        s'.error_count = (s.error_count + 1) % 2 ^ 64 ∧
        s'.last_error = err.getD "Unknown HID error") ∧
    (∀ (op : Op) (s' : SpaceMouseDevice), step s op = some s' →
      s.running = true → s'.running = false →
      op = Op.close ∨ ∃ to_lower hid_open_path info, op = Op.open_first to_lower hid_open_path info) := by
  constructor
  · intro h now_ms err hen hdev
    exact ⟨_, reader_iteration_error s now_ms h err hm hen hdev, rfl, rfl, rfl, rfl, rfl⟩
  · intro op s' hstep hrun hstop
    cases op with
    | open_first to_lower hid_open_path info => exact Or.inr ⟨_, _, _, rfl⟩
    | close => exact Or.inl rfl
    | get_state reads =>
      exfalso
      simp only [step, Option.map_eq_some', Prod.exists, exists_eq_right] at hstep
      obtain ⟨view, hv⟩ := hstep
      obtain ⟨lrr, le, hs'⟩ := get_state_frame s reads hm view s' hv
      rcases hs' with rfl | rfl <;> simp [hrun] at hstop
    | set_enabled p_enabled =>
      exfalso
      simp only [step, Option.some.injEq] at hstep
      subst hstep
      simp [set_enabled, hrun] at hstop
    | enable_raw_logging p_enabled =>
      exfalso
      simp only [step, Option.some.injEq] at hstep
      subst hstep
      simp [enable_raw_logging, hrun] at hstop
    | reader_start =>
      exfalso
      simp only [step] at hstep
      split_ifs at hstep
      simp only [Option.some.injEq] at hstep
      subst hstep
      simp [reader_start, hrun] at hstop
    | reader_iteration now_ms read =>
      exfalso
      simp only [step] at hstep
      split_ifs at hstep
      obtain ⟨s1, hs1, _, _, fr, _⟩ := reader_iteration_frame s now_ms read hm
      rw [hs1, Option.some.injEq] at hstep
      subst hstep
      rw [fr, hrun] at hstop
      exact absurd hstop (by simp)
    | reader_exit =>
      exfalso
      simp only [step] at hstep
      split_ifs at hstep with hg
      simp [hrun] at hg

/-- C18 on a running session whose reader is alive: after a pass with a failed read the
session is disconnected and still running. -/
theorem read_error_keeps_running_witness :
    ∃ s', reader_loop_iteration
        { SpaceMouseDevice.init with
          device := some 0, running := true, connected := true, thread_alive := true,
          reader_joinable := true } 9 (hid_read_result.error (some "io")) = some s' ∧
      s'.connected = false ∧ s'.running = true ∧ s'.last_read_result = -1 ∧
      s'.error_count = 1 ∧ s'.last_error = "io" := by
  obtain ⟨s', h, hc, hr, hl, he, hle⟩ := (read_error_keeps_running
    { SpaceMouseDevice.init with
      device := some 0, running := true, connected := true, thread_alive := true,
      reader_joinable := true } rfl).1 0 9 (some "io") rfl rfl
  exact ⟨s', h, hc, hr, hl, he, hle⟩

theorem counters_le_refl (s : SpaceMouseDevice) : counters_le s s :=
  ⟨le_refl _, le_refl _, le_refl _, fun _ => le_refl _⟩

theorem close_counters (s : SpaceMouseDevice) : counters_le s (close s) := by
  obtain ⟨device, reader_joinable, running, enabled, connected, raw_logging, last_report_id,
    usage_page, usage, device_path, last_read_result, last_error, read_count, error_count,
    loop_count, last_tick_ms, thread_alive, state_mutex, translation, rotation, buttons,
    last_report, seen_reports⟩ := s
  cases device <;> cases reader_joinable <;>
    simp [close, reader_exit, counters_le]

/-- C15: with the counters below the point where a 64-bit counter wraps, a pass of the
background loop, `handle_report`, `get_state` (when it returns), `set_enabled`,
`enable_raw_logging`, `close` and an `open_first` that returns false each leave
`read_count`, `error_count`, `loop_count` and every seen-reports count at least as large
as before; the pass, `handle_report` and `open_first` do return. -/
theorem counters_never_decrease (s : SpaceMouseDevice) (hm : s.state_mutex = false)
    (hr : s.read_count + 1 < 2 ^ 64) (he : s.error_count + 1 < 2 ^ 64)
    (hl : s.loop_count + 1 < 2 ^ 64) :
    (∀ (now_ms : Nat) (read : hid_read_result),
      ∃ s', reader_loop_iteration s now_ms read = some s' ∧ counters_le s s') ∧
    (∀ p_data : List uint8_t, ∃ s', handle_report s p_data = some s' ∧ counters_le s s') ∧
    (∀ (reads : List hid_read_result) (view : StateView) (s' : SpaceMouseDevice),
      get_state s reads = some (view, s') → counters_le s s') ∧
    (∀ p_enabled : Bool, counters_le s (set_enabled s p_enabled)) ∧
    (∀ p_enabled : Bool, counters_le s (enable_raw_logging s p_enabled)) ∧
    counters_le s (close s) ∧
    (∀ (to_lower : String → String) (hid_open_path : String → Option hid_device)
        (info : List hid_device_info),
      ∃ ok s', open_first to_lower hid_open_path info s = some (ok, s') ∧
        (ok = false → counters_le s s')) := by
  have mr : (s.read_count + 1) % 2 ^ 64 = s.read_count + 1 := Nat.mod_eq_of_lt hr
  have me : (s.error_count + 1) % 2 ^ 64 = s.error_count + 1 := Nat.mod_eq_of_lt he
  have ml : (s.loop_count + 1) % 2 ^ 64 = s.loop_count + 1 := Nat.mod_eq_of_lt hl
  refine ⟨?_, ?_, ?_, fun _ => counters_le_refl s, fun _ => counters_le_refl s,
    close_counters s, ?_⟩
  · intro now_ms read
    obtain ⟨s', hs', _, _, _, _, _, _, fl, fr, fe, fs⟩ :=
      reader_iteration_frame s now_ms read hm
    refine ⟨s', hs', ?_, ?_, ?_, fs⟩
    · rcases fr with h | h <;> omega
    · rcases fe with h | h <;> omega
    · rw [fl]
      omega
  · intro p_data
    obtain ⟨s', hs', _, _, _, _, _, _, fl, fr, fe, _, fs⟩ := handle_report_frame s p_data hm
    exact ⟨s', hs', by rw [fr], by rw [fe], by rw [fl], fs⟩
  · intro reads view s' hv
    obtain ⟨lrr, le, hs'⟩ := get_state_frame s reads hm view s' hv
    rcases hs' with rfl | rfl
    · exact counters_le_refl s
    · refine ⟨le_refl _, ?_, le_refl _, fun _ => le_refl _⟩
      show s.error_count ≤ (s.error_count + 1) % 2 ^ 64
      omega
  · intro to_lower hid_open_path info
    obtain ⟨ok, s', hs', _, _, hfalse⟩ := open_first_outcome to_lower hid_open_path info s hm
    refine ⟨ok, s', hs', fun hok => ?_⟩
    obtain ⟨_, _, _, _, _, fr, fe, fl, fs⟩ := hfalse hok
    exact ⟨by rw [fr], by rw [fe], by rw [fl], fun k => by rw [fs]⟩

/-- C15 on the used session (counts 4, 1, 9; ids 1 and 3 seen) with a handle open: a pass
that reads a report of id 3, and a close, keep every counter at least as large. -/
theorem counters_never_decrease_witness :
    (∃ s', reader_loop_iteration { used_session with device := some 1 } 50
        (hid_read_result.data [3, 0]) = some s' ∧
      counters_le { used_session with device := some 1 } s') ∧
    counters_le { used_session with device := some 1 }
      (close { used_session with device := some 1 }) := by
  have key := counters_never_decrease { used_session with device := some 1 } rfl
    (by decide) (by decide) (by decide)
  exact ⟨key.1 50 (hid_read_result.data [3, 0]), key.2.2.2.2.2.1⟩

/-! ## Theorems: snapshots and the lock scopes of the decoder -/

end SpaceMouse
